import Mathlib

/-!
Verification development for the radar-scope engine of the avian repository
(scope-generic.go and its collaborators).  The per-aircraft scope state,
the event synchronization protocol, the visibility filter, the automatic
datablock layout engine, the conflict/range detector, the MIT sequencer and
the mouse-gesture handling are embedded shallowly: Go float32 arithmetic is
idealized as real arithmetic, Go maps keyed by aircraft pointers become
association lists keyed by a stable aircraft identifier, and external
collaborators (geometry transforms, the CRDA ghost generator, the conflict
computation of aviation.go, the datablock text formatter, fonts, clipboard)
are parameters of the embedding, following the interface boundary that the
design document draws around the engine.
-/

open scoped Classical

noncomputable section

/-- Aircraft are identified by a stable numeric identifier (the design notes
prescribe replacing Go pointer-keyed maps by identifier-keyed maps). -/
abbrev AircraftId := Nat

/-- Two-component vector, the embedding of Go [2]float32. -/
abbrev Vec2 := ℝ × ℝ

/-- Modelled from the spec: component-wise vector addition (util.go is not
part of the sources at hand). -/
def add2f (a b : Vec2) : Vec2 := (a.1 + b.1, a.2 + b.2)

/-- Modelled from the spec: component-wise vector subtraction. -/
def sub2f (a b : Vec2) : Vec2 := (a.1 - b.1, a.2 - b.2)

/-- Modelled from the spec: scaling of a vector by a scalar. -/
def scale2f (a : Vec2) (s : ℝ) : Vec2 := (s * a.1, s * a.2)

/-- Modelled from the spec: Euclidean length of a vector. -/
def length2f (a : Vec2) : ℝ := Real.sqrt (a.1 ^ 2 + a.2 ^ 2)

/-- Modelled from the spec: the unit vector along a. -/
def normalize2f (a : Vec2) : Vec2 := scale2f a (1 / length2f a)

/-- Modelled from the spec: Euclidean distance between two points. -/
def distance2f (a b : Vec2) : ℝ := length2f (sub2f a b)

/-- Axis-aligned bounding box, the embedding of util.go Extent2D. -/
structure Extent2D where
  p0 : Vec2
  p1 : Vec2

instance : Inhabited Extent2D := ⟨⟨(0, 0), (0, 0)⟩⟩

/-- Modelled from the spec: translate a box by a vector. -/
def Extent2D.Offset (e : Extent2D) (v : Vec2) : Extent2D :=
  ⟨add2f e.p0 v, add2f e.p1 v⟩

/-- Modelled from the spec: grow a box by d pixels in every direction
(the 5 px padding margin of the layout engine is applied with this). -/
def Extent2D.Expand (e : Extent2D) (d : ℝ) : Extent2D :=
  ⟨(e.p0.1 - d, e.p0.2 - d), (e.p1.1 + d, e.p1.2 + d)⟩

/-- Modelled from the spec: center point of a box. -/
def Extent2D.Center (e : Extent2D) : Vec2 :=
  ((e.p0.1 + e.p1.1) / 2, (e.p0.2 + e.p1.2) / 2)

/-- Modelled from the spec: membership of a point in a box. -/
def Extent2D.Inside (e : Extent2D) (p : Vec2) : Prop :=
  e.p0.1 ≤ p.1 ∧ p.1 ≤ e.p1.1 ∧ e.p0.2 ≤ p.2 ∧ p.2 ≤ e.p1.2

/-- Modelled from the spec: open-interval overlap of two boxes, the test
every padded-bounds comparison of the layout engine goes through. -/
def Overlaps (a b : Extent2D) : Prop :=
  a.p0.1 < b.p1.1 ∧ b.p0.1 < a.p1.1 ∧ a.p0.2 < b.p1.2 ∧ b.p0.2 < a.p1.2

/-- The externally-owned aircraft entity, as queried through the aircraft
interface: identity, live position (lat-long), altitude, heading, ground
flag, track staleness at the current frame time, squawk, handoff fields and
the arrival airport of the flight plan (none encodes a nil flight plan). -/
structure Aircraft where
  callsign : String := ""
  position : Vec2 := (0, 0)
  altitude : ℤ := 0
  heading : ℝ := 0
  onGround : Bool := false
  lostTrack : Bool := false
  squawk : ℕ := 0
  inboundHandoffController : String := ""
  outboundHandoffController : String := ""
  arrivalAirport : Option String := none

instance : Inhabited Aircraft := ⟨{}⟩

/-- Per-aircraft derived visual state owned by the scope pane
(scope-generic.go AircraftScopeState). -/
structure AircraftScopeState where
  isGhost : Bool := false
  datablockAutomaticOffset : Vec2 := (0, 0)
  datablockManualOffset : Vec2 := (0, 0)
  datablockText : String × String := ("", "")
  datablockTextCurrent : Bool := false
  datablockBounds : Extent2D := ⟨(0, 0), (0, 0)⟩

instance : Inhabited AircraftScopeState := ⟨{}⟩

/-- On-screen datablock bounds given the aircraft position in window
coordinates: the manual offset takes precedence when non-zero
(scope-generic.go WindowDatablockBounds). -/
def AircraftScopeState.WindowDatablockBounds (t : AircraftScopeState) (p : Vec2) : Extent2D :=
  let db := t.datablockBounds.Offset p
  if t.datablockManualOffset.1 ≠ 0 ∨ t.datablockManualOffset.2 ≠ 0 then
    db.Offset t.datablockManualOffset
  else
    db.Offset t.datablockAutomaticOffset

/-- A range-bearing line: an aircraft plus an arbitrary geographic point. -/
structure RangeBearingLine where
  ac : AircraftId
  p : Vec2

/-- The engine-owned state of a radar scope pane: configuration fields kept
with their Go names, plus the aircraft state store, the ghost association,
the controller tool collections and the audio-alert timestamp. -/
structure RadarScopePane where
  Center : Vec2 := (0, 0)
  Range : ℝ := 15
  RotationAngle : ℝ := 0
  AutomaticDatablockLayout : Bool := false
  MinAltitude : ℤ := 0
  MaxAltitude : ℤ := 60000
  DrawRangeIndicators : Bool := false
  AutoMIT : Bool := false
  AutoMITAirports : List String := []
  CRDAEnabled : Bool := false
  acSelectedByDatablock : Option AircraftId := none
  minSepLines : List (AircraftId × AircraftId) := []
  rangeBearingLines : List RangeBearingLine := []
  mitList : List AircraftId := []
  lastRangeNotificationPlayed : ℝ := 0
  aircraft : List (AircraftId × AircraftScopeState) := []
  ghostAircraft : List (AircraftId × AircraftId) := []
  rangeWarnings : List (AircraftId × AircraftId) := []
  pointedOut : List (AircraftId × String × ℝ) := []

/-- Mouse input consumed by the pane for one frame. -/
structure MouseCtx where
  pos : Vec2 := (0, 0)
  dragDelta : Vec2 := (0, 0)
  clickedPrimary : Bool := false
  draggingPrimary : Bool := false

/-- Modifier-key state consumed by the gesture handling. -/
structure KeyboardState where
  shift : Bool := false
  control : Bool := false

/-- Typed notifications drained from the event stream each frame
(eventstream collaborators; the four kinds processEvents consumes). -/
inductive ScopeEvent where
  | AddedAircraftEvent (ac : AircraftId)
  | RemovedAircraftEvent (ac : AircraftId)
  | ModifiedAircraftEvent (ac : AircraftId)
  | PointOutEvent (ac : AircraftId) (controller : String)

/-- Side effects the engine performs on external collaborators. -/
inductive PaneAction where
  | setClipboard (s : String)
  | postSelected (ac : Option AircraftId)

/-- Audio events fired at the audio-alert sink. -/
inductive AudioEvent where
  | conflictAlert
deriving DecidableEq

/-- The phases the per-frame Draw pass runs, in the order of the calls it
makes; used to state the fixed per-frame ordering. -/
inductive DrawPhase where
  | sync
  | tracks
  | rangeIndicators
  | mit
  | textUpdate
  | layout
  | datablocks
  | vectorLines
  | mouse
deriving DecidableEq

/-- The frame context handed to the pane: the external collaborators
(aircraft query, geometry transforms, CRDA ghost generator, conflict
computation, text formatter, font metrics, clipboard formatting, scope
pan/zoom handling), the pane extent, the frame times and the frame inputs
(drained events, mouse, keyboard, shared selection, thumbnail flag). -/
structure PaneCtx where
  acData : AircraftId → Aircraft
  nmdistance2ll : Vec2 → Vec2 → ℝ
  headingp2ll : Vec2 → Vec2 → ℝ → ℝ
  MagneticVariation : ℝ := 0
  estimatedFutureDistance : AircraftId → AircraftId → ℝ → ℝ
  windowFromLatLong : Vec2 → Vec2
  latLongFromWindow : Vec2 → Vec2
  dmsString : Vec2 → String
  getGhost : AircraftId → Option AircraftId
  getConflicts : List AircraftId →
    List (AircraftId × AircraftId) × List (AircraftId × AircraftId)
  formatDatablock : AircraftId → Bool → ℕ → String
  boundText : String → ℝ × ℝ
  allAircraft : List AircraftId
  airportLocation : String → Vec2
  updateScopePosition : Vec2 → ℝ → Vec2 × ℝ
  paneWidth : ℝ
  paneHeight : ℝ
  realNow : ℝ
  thumbnail : Bool := false
  events : List ScopeEvent := []
  mouse : Option MouseCtx := none
  keyboard : KeyboardState := {}
  selectedAircraft : Option AircraftId := none

/-- Association-list lookup, the embedding of a Go map read. -/
def mapLookup {β : Type} (k : AircraftId) : List (AircraftId × β) → Option β
  | [] => none
  | (k2, v) :: rest => if k = k2 then some v else mapLookup k rest

/-- Association-list deletion, the embedding of Go delete(m, k). -/
def mapErase {β : Type} (k : AircraftId) : List (AircraftId × β) → List (AircraftId × β)
  | [] => []
  | (k2, v) :: rest =>
    if k = k2 then mapErase k rest else (k2, v) :: mapErase k rest

/-- Association-list insertion/replacement, the embedding of m[k] = v. -/
def mapInsert {β : Type} (k : AircraftId) (v : β) (m : List (AircraftId × β)) :
    List (AircraftId × β) :=
  (k, v) :: mapErase k m

/-- In-place mutation of the state stored under k, the embedding of a Go
write through the pointer kept in the map. -/
def mapUpdate {β : Type} (k : AircraftId) (f : β → β) :
    List (AircraftId × β) → List (AircraftId × β)
  | [] => []
  | (k2, v) :: rest =>
    if k2 = k then (k2, f v) :: mapUpdate k f rest else (k2, v) :: mapUpdate k f rest

/-- Lookup with a default, for reads the Go code performs on keys it knows
are present. -/
def mapGetD {β : Type} [Inhabited β] (k : AircraftId) (m : List (AircraftId × β)) : β :=
  (mapLookup k m).getD default

/-- Filtering a slice by a keep-predicate, the embedding of util.go
FilterSlice (classical conditions, so real-valued predicates are allowed). -/
def FilterSlice {α : Type} (p : α → Prop) : List α → List α
  | [] => []
  | a :: rest => if p a then a :: FilterSlice p rest else FilterSlice p rest

/-- The per-frame visibility predicate of the pane (scope-generic.go
visible): track not stale, altitude in the configured band, distance from
the pane center under twice the display range. -/
def visible (ctx : PaneCtx) (rs : RadarScopePane) (a : AircraftId) : Prop :=
  ¬(ctx.acData a).lostTrack = true ∧
    rs.MinAltitude ≤ (ctx.acData a).altitude ∧
    (ctx.acData a).altitude ≤ rs.MaxAltitude ∧
    ctx.nmdistance2ll (ctx.acData a).position rs.Center < 2 * rs.Range

/-- One step of the event synchronization of scope-generic.go
processEvents: the Added, Removed, Modified and PointOut cases, transcribed
case by case. -/
def processEvent (ctx : PaneCtx) (rs : RadarScopePane) (e : ScopeEvent) : RadarScopePane :=
  match e with
  | .AddedAircraftEvent ac =>
    let rs := { rs with aircraft := mapInsert ac {} rs.aircraft }
    if rs.CRDAEnabled then
      match ctx.getGhost ac with
      | some ghost =>
        { rs with
          ghostAircraft := mapInsert ac ghost rs.ghostAircraft,
          aircraft := mapInsert ghost { isGhost := true } rs.aircraft }
      | none => rs
    else rs
  | .RemovedAircraftEvent ac =>
    let aircraft1 :=
      match mapLookup ac rs.ghostAircraft with
      | some ghost => mapErase ghost rs.aircraft
      | none => rs.aircraft
    { rs with
      aircraft := mapErase ac aircraft1,
      ghostAircraft := mapErase ac rs.ghostAircraft,
      acSelectedByDatablock :=
        if rs.acSelectedByDatablock = some ac then none else rs.acSelectedByDatablock,
      minSepLines :=
        FilterSlice (fun msa => msa.1 ≠ ac ∧ msa.2 ≠ ac) rs.minSepLines,
      rangeBearingLines :=
        FilterSlice (fun rbl => rbl.ac ≠ ac) rs.rangeBearingLines,
      mitList := FilterSlice (fun a => a ≠ ac) rs.mitList }
  | .ModifiedAircraftEvent ac =>
    let rs :=
      if rs.CRDAEnabled then
        match mapLookup ac rs.ghostAircraft with
        | some oldGhost =>
          { rs with
            aircraft := mapErase oldGhost rs.aircraft,
            ghostAircraft := mapErase ac rs.ghostAircraft }
        | none => rs
      else rs
    let rs :=
      match mapLookup ac rs.aircraft with
      | none => { rs with aircraft := mapInsert ac {} rs.aircraft }
      | some _ =>
        { rs with
          aircraft :=
            mapUpdate ac (fun st => { st with datablockTextCurrent := false }) rs.aircraft }
    let rs :=
      if ac ∈ rs.mitList ∧ (ctx.acData ac).onGround = true then
        { rs with mitList := rs.mitList.erase ac }
      else rs
    if rs.CRDAEnabled then
      match ctx.getGhost ac with
      | some ghost =>
        { rs with
          ghostAircraft := mapInsert ac ghost rs.ghostAircraft,
          aircraft := mapInsert ghost { isGhost := true } rs.aircraft }
      | none => rs
    else rs
  | .PointOutEvent ac controller =>
    { rs with pointedOut := (ac, controller, ctx.realNow + 5) :: rs.pointedOut }

/-- Draining the event subscription for the frame: the events are applied
in order (scope-generic.go processEvents). -/
def processEvents (ctx : PaneCtx) (rs : RadarScopePane) (events : List ScopeEvent) :
    RadarScopePane :=
  events.foldl (processEvent ctx) rs

/-- An arrival candidate of the auto-MIT sequencer: the aircraft, its
distance to its arrival airport, and the altitude-biased sort key
(panes.go Arrival). -/
structure Arrival where
  aircraft : AircraftId
  distance : ℝ
  sortDistance : ℝ

instance : Inhabited Arrival := ⟨⟨0, 0, 0⟩⟩

/-- Modelled from the spec: minimal difference of two headings in degrees,
wrapped so it is at most 180 (the helper lives in util sources that are not
at hand). -/
def headingDifference (a b : ℝ) : ℝ :=
  let d := |a - b|
  if d > 180 then 360 - d else d

/-- The in-trail predicate of the auto-MIT sequencer (scope-generic.go
drawMIT, inner closure): note that it reads the heading of the back
aircraft, the bearing from the back aircraft to the front aircraft, and
the signed altitude difference back minus front. -/
def inTrail (ctx : PaneCtx) (front back : Arrival) : Prop :=
  let dalt := (ctx.acData back.aircraft).altitude - (ctx.acData front.aircraft).altitude
  let backHeading := (ctx.acData back.aircraft).heading
  let angle :=
    ctx.headingp2ll (ctx.acData back.aircraft).position
      (ctx.acData front.aircraft).position ctx.MagneticVariation
  let diff := headingDifference backHeading angle
  diff < 150 ∧ dalt < 3000

/-- The arrival list of the auto-MIT sequencer (panes.go
getDistanceSortedArrivals): airborne, tracked aircraft with a flight plan
bound for one of the configured airports, at a valid position, sorted by
distance-to-airport biased by altitude. -/
def getDistanceSortedArrivals (ctx : PaneCtx) (airports : List String) : List Arrival :=
  let arr := ctx.allAircraft.filterMap (fun a =>
    let ac := ctx.acData a
    match ac.arrivalAirport with
    | none => none
    | some ap =>
      if ac.onGround = true ∨ ac.lostTrack = true then none
      else if ap ∈ airports then
        if ac.position.1 ≠ 0 ∧ ac.position.2 ≠ 0 then
          let dist := ctx.nmdistance2ll (ctx.airportLocation ap) ac.position
          some ⟨a, dist, dist + (ac.altitude : ℝ) / 300⟩
        else none
      else none)
  List.insertionSort (fun x y => x.sortDistance ≤ y.sortDistance) arr

/-- Accumulator of the inner scan of drawMIT: the best candidate so far,
its distance (initialized to the 20 nm cutoff) and its projected distance. -/
structure MITBest where
  minDist : ℝ := 20
  estDist : ℝ := 0
  closest : Option Arrival := none

/-- One step of the inner scan of drawMIT, for the arrival ai at index i
against the candidate at index ja.1: skipped when it is ai itself or bound
for another airport; accepted as the new best when it is nearer than the
current minimum and in-trail. -/
def mitScanStep (ctx : PaneCtx) (ai : Arrival) (i : ℕ) (best : MITBest)
    (ja : ℕ × Arrival) : MITBest :=
  let dist :=
    ctx.nmdistance2ll (ctx.acData ai.aircraft).position (ctx.acData ja.2.aircraft).position
  if i = ja.1 ∨
      (ctx.acData ja.2.aircraft).arrivalAirport ≠ (ctx.acData ai.aircraft).arrivalAirport then
    best
  else if dist < best.minDist ∧ inTrail ctx ai ja.2 then
    { minDist := dist,
      estDist := ctx.estimatedFutureDistance ja.2.aircraft ai.aircraft 30,
      closest := some ja.2 }
  else best

/-- The inner scan of drawMIT for the arrival at index i: over all other
arrivals bound for the same airport, keep the nearest one that passes the
in-trail predicate and is closer than the current minimum (which starts at
20 nm). -/
def mitScan (ctx : PaneCtx) (arr : List Arrival) (i : ℕ) : MITBest :=
  arr.enum.foldl (mitScanStep ctx (arr.getD i default) i) {}

/-- Annotation color of an MIT line, by the distance thresholds of drawMIT. -/
inductive MITColor where
  | safe
  | caution
  | error
deriving DecidableEq

/-- One drawn MIT separation line: the pair, the endpoints, the measured
and 30-second-projected distances, and the color class. -/
structure MITLine where
  trailing : AircraftId
  leading : AircraftId
  p0 : Vec2
  p1 : Vec2
  dist : ℝ
  estDist : ℝ
  color : MITColor

/-- One automatic-mode MIT annotation, for the arrival at index i: the
mitScan result, suppressed when the chosen pair is already flagged as a
range warning. -/
def drawMITAutoLine (ctx : PaneCtx) (rs : RadarScopePane) (arr : List Arrival) (i : ℕ) :
    Option MITLine :=
  let ai := arr.getD i default
  let best := mitScan ctx arr i
  match best.closest with
  | none => none
  | some closest =>
    if (ai.aircraft, closest.aircraft) ∈ rs.rangeWarnings then none
    else
      some
        { trailing := ai.aircraft,
          leading := closest.aircraft,
          p0 := (ctx.acData ai.aircraft).position,
          p1 := (ctx.acData closest.aircraft).position,
          dist := best.minDist,
          estDist := best.estDist,
          color :=
            if best.minDist > 5 then MITColor.safe
            else if best.minDist > 3 then MITColor.caution
            else MITColor.error }

/-- The MIT sequencer (scope-generic.go drawMIT): automatic mode runs only
when enabled and no manual sequence exists; each arrival after the first is
paired by drawMITAutoLine; manual mode annotates consecutive pairs of the
manual list under the same range-warning suppression. -/
def drawMIT (ctx : PaneCtx) (rs : RadarScopePane) : List MITLine :=
  if rs.AutoMIT = true ∧ rs.mitList = [] then
    let arr := getDistanceSortedArrivals ctx rs.AutoMITAirports
    (List.range' 1 (arr.length - 1)).filterMap (drawMITAutoLine ctx rs arr)
  else
    (rs.mitList.zip rs.mitList.tail).filterMap (fun fb =>
      let front := fb.1
      let trailing := fb.2
      if (front, trailing) ∈ rs.rangeWarnings then none
      else
        let dist := ctx.nmdistance2ll (ctx.acData front).position (ctx.acData trailing).position
        some
          { trailing := trailing,
            leading := front,
            p0 := (ctx.acData front).position,
            p1 := (ctx.acData trailing).position,
            dist := dist,
            estDist := ctx.estimatedFutureDistance front trailing 30,
            color :=
              if dist > 5 then MITColor.safe
              else if dist > 3 then MITColor.caution
              else MITColor.error })

/-- The conflict/range detector pass (scope-generic.go
drawRangeIndicators): when enabled, the visible non-ghost aircraft are
handed to the external conflict computation, the warning set is rebuilt
from scratch with both orders of every pair, and a single conflict-alert
audio event fires when the violation list is non-empty and more than 3
seconds have passed since the last alert. -/
def drawRangeIndicators (ctx : PaneCtx) (rs : RadarScopePane) :
    RadarScopePane × List AudioEvent :=
  if ¬rs.DrawRangeIndicators = true then (rs, [])
  else
    let aircraft :=
      (FilterSlice (fun p => ¬p.2.isGhost = true ∧ visible ctx rs p.1) rs.aircraft).map
        (fun p => p.1)
    let wv := ctx.getConflicts aircraft
    let rw := (wv.1 ++ wv.2).foldl (fun m p => (p.2, p.1) :: (p.1, p.2) :: m) []
    let rs1 := { rs with rangeWarnings := rw }
    if wv.2 ≠ [] ∧ ctx.realNow - rs1.lastRangeNotificationPlayed > 3 then
      ({ rs1 with lastRangeNotificationPlayed := ctx.realNow }, [AudioEvent.conflictAlert])
    else (rs1, [])

/-- Modelled from the spec: reading the transient point-out store returns
the recorded controller while the 5-second expiry has not passed
(TransientMap lives in util sources not at hand). -/
def pointedOutGet (ctx : PaneCtx) (rs : RadarScopePane) (a : AircraftId) : Option String :=
  match FilterSlice (fun e => e.1 = a ∧ ctx.realNow < e.2.2) rs.pointedOut with
  | [] => none
  | e :: _ => some e.2.1

/-- Icon prefix of an inbound handoff in the datablock text. -/
def iconArrowLeft : String := "<-"

/-- Icon prefix of an outbound handoff in the datablock text. -/
def iconArrowRight : String := "->"

/-- Icon prefix of a point-out in the datablock text. -/
def iconWarn : String := "/!\\"

/-- The datablock text and bounds cache (scope-generic.go
updateDatablockTextAndBounds): for each visible aircraft whose cached text
is stale, both flash-cycle variants are regenerated through the external
formatter (augmented with handoff and point-out suffixes), the local bounds
are the maximum width and height over both variants anchored with the upper
left at the origin, and the cache flag is set. -/
def updateDatablockTextAndBounds (ctx : PaneCtx) (rs : RadarScopePane) : RadarScopePane :=
  let squawkCount : ℕ → ℕ := fun sq =>
    (FilterSlice (fun p => ¬p.2.isGhost = true ∧ (ctx.acData p.1).squawk = sq) rs.aircraft).length
  { rs with
    aircraft := rs.aircraft.map (fun p =>
      if ¬visible ctx rs p.1 then p
      else if p.2.datablockTextCurrent = true then p
      else
        let texts :=
          if ctx.thumbnail = true then
            ((ctx.acData p.1).callsign, (ctx.acData p.1).callsign)
          else
            let hopo0 :=
              if (ctx.acData p.1).inboundHandoffController ≠ "" then
                iconArrowLeft ++ (ctx.acData p.1).inboundHandoffController
              else ""
            let hopo1 :=
              hopo0 ++
                (if (ctx.acData p.1).outboundHandoffController ≠ "" then
                  iconArrowRight ++ (ctx.acData p.1).outboundHandoffController
                else "")
            let hopo2 :=
              hopo1 ++
                (match pointedOutGet ctx rs p.1 with
                | some controller => iconWarn ++ controller
                | none => "")
            let hopo := if hopo2 ≠ "" then "\n" ++ hopo2 else hopo2
            (ctx.formatDatablock p.1 (squawkCount (ctx.acData p.1).squawk ≠ 1) 0 ++ hopo,
              ctx.formatDatablock p.1 (squawkCount (ctx.acData p.1).squawk ≠ 1) 1 ++ hopo)
        let b0 := ctx.boundText texts.1
        let b1 := ctx.boundText texts.2
        let bx := max b0.1 b1.1
        let byv := max b0.2 b1.2
        (p.1,
          { p.2 with
            datablockText := texts,
            datablockTextCurrent := true,
            datablockBounds := ⟨(0, -byv), (bx, 0)⟩ })) }

/-- First list element satisfying a predicate, the embedding of a Go
range-loop with a break on the first hit. -/
def firstWhere {α : Type} (p : α → Prop) : List α → Option α
  | [] => none
  | a :: rest => if p a then some a else firstWhere p rest

/-- The datablock rendering pass (scope-generic.go drawDatablocks) reduced
to the set it draws: aircraft sorted by callsign with the selected aircraft
last, kept when the per-aircraft visibility filter passes and the
on-screen datablock bounds overlap the pane. -/
def drawDatablocks (ctx : PaneCtx) (rs : RadarScopePane) : List AircraftId :=
  let paneBounds : Extent2D := ⟨(0, 0), (ctx.paneWidth, ctx.paneHeight)⟩
  let aircraft :=
    List.insertionSort
      (fun a b =>
        if (ctx.selectedAircraft = some a) ↔ (ctx.selectedAircraft = some b) then
          (ctx.acData a).callsign ≤ (ctx.acData b).callsign
        else ctx.selectedAircraft = some b)
      (rs.aircraft.map (fun p => p.1))
  FilterSlice
    (fun a =>
      visible ctx rs a ∧
        Overlaps paneBounds
          ((mapGetD a rs.aircraft).WindowDatablockBounds
            (ctx.windowFromLatLong (ctx.acData a).position)))
    aircraft

/-- The mouse-gesture state machine (scope-generic.go consumeMouseEvents):
scope pan/zoom through the external helper, then resolution of an
in-progress datablock drag, then classification of a fresh primary click
by modifier keys. -/
def consumeMouseEvents (ctx : PaneCtx) (rs : RadarScopePane) :
    RadarScopePane × List PaneAction :=
  match ctx.mouse with
  | none => (rs, [])
  | some mouse =>
    let cr := ctx.updateScopePosition rs.Center rs.Range
    let rs := { rs with Center := cr.1, Range := cr.2 }
    let rs :=
      match rs.acSelectedByDatablock with
      | some ac =>
        if mouse.draggingPrimary = true then
          { rs with
            aircraft :=
              mapUpdate ac
                (fun st =>
                  { st with
                    datablockManualOffset :=
                      add2f st.datablockAutomaticOffset
                        (add2f st.datablockManualOffset mouse.dragDelta),
                    datablockAutomaticOffset := (0, 0) })
                rs.aircraft }
        else { rs with acSelectedByDatablock := none }
      | none => rs
    if ¬mouse.clickedPrimary = true then (rs, [])
    else
      let candidateAircraft := FilterSlice (fun p => visible ctx rs p.1) rs.aircraft
      let clicked0 :=
        candidateAircraft.foldl
          (fun best p =>
            let pw := ctx.windowFromLatLong (ctx.acData p.1).position
            let dist := distance2f pw mouse.pos
            if dist < best.2 then (some p.1, dist) else best)
          ((none : Option AircraftId), (15 : ℝ))
      let dbHit :=
        firstWhere
          (fun p =>
            ((p.2).WindowDatablockBounds
              (ctx.windowFromLatLong (ctx.acData p.1).position)).Inside mouse.pos)
          candidateAircraft
      let rs2 :=
        match dbHit with
        | some p => { rs with acSelectedByDatablock := some p.1 }
        | none => rs
      let clickedAircraft :=
        match dbHit with
        | some p => some p.1
        | none => clicked0.1
      let purge := fun (a : AircraftId) =>
        ({ rs2 with
            minSepLines := FilterSlice (fun l => l.1 ≠ a ∧ l.2 ≠ a) rs2.minSepLines,
            rangeBearingLines :=
              FilterSlice (fun rbl => rbl.ac ≠ a) rs2.rangeBearingLines },
          ([] : List PaneAction))
      if ctx.keyboard.shift = true ∧ ctx.keyboard.control = true then
        (rs2, [PaneAction.setClipboard (ctx.dmsString (ctx.latLongFromWindow mouse.pos))])
      else if ctx.keyboard.control = true then
        match clickedAircraft with
        | none => (rs2, [])
        | some a =>
          if a ∈ rs2.mitList then ({ rs2 with mitList := rs2.mitList.erase a }, [])
          else ({ rs2 with mitList := rs2.mitList ++ [a] }, [])
      else if ctx.keyboard.shift = true then
        match clickedAircraft with
        | none =>
          match ctx.selectedAircraft with
          | some selAc =>
            ({ rs2 with
                rangeBearingLines :=
                  rs2.rangeBearingLines ++ [⟨selAc, ctx.latLongFromWindow mouse.pos⟩] },
              [])
          | none => (rs2, [])
        | some a =>
          match ctx.selectedAircraft with
          | some selAc =>
            if selAc ≠ a then
              if ∃ line ∈ rs2.minSepLines,
                  (line.1 = a ∧ line.2 = selAc) ∨ (line.2 = a ∧ line.1 = selAc) then
                (rs2, [])
              else ({ rs2 with minSepLines := rs2.minSepLines ++ [(selAc, a)] }, [])
            else purge a
          | none => purge a
      else
        (rs2, [PaneAction.postSelected clickedAircraft])

/-- The heading-based connection point on a datablock bounding box
(scope-generic.go datablockConnectP): twelve compass sectors select an edge
midpoint (cardinal) or a corner (intercardinal); the boolean reports the
corner case. -/
def datablockConnectP (bbox : Extent2D) (heading : ℝ) : Vec2 × Bool :=
  let center := bbox.Center
  let h1 := heading + 15
  let h2 := if h1 < 0 then h1 + 360 else h1
  let h := if h2 > 360 then h2 - 360 else h2
  if h < 30 then ((bbox.p0.1, center.2), false)
  else if h < 90 then ((bbox.p0.1, bbox.p1.2), true)
  else if h < 120 then ((center.1, bbox.p1.2), false)
  else if h < 180 then ((bbox.p0.1, bbox.p0.2), true)
  else if h < 210 then ((bbox.p0.1, center.2), false)
  else if h < 270 then ((bbox.p0.1, bbox.p1.2), true)
  else if h < 300 then ((center.1, bbox.p0.2), false)
  else ((bbox.p0.1, bbox.p0.2), true)

/-- The heading-based ideal offset of a datablock (the offsetSelfOnly
closure of layoutDatablocks): translate the padded box so the connection
point reaches the track position, with an extra 3 px push-out along the
anchor direction for edge midpoints. -/
def offsetSelfOnly (ctx : PaneCtx) (rs : RadarScopePane) (ac : Aircraft)
    (info : AircraftScopeState) : Vec2 :=
  let bbox := info.datablockBounds.Expand 5
  let heading := ac.heading + rs.RotationAngle
  let pc := datablockConnectP bbox heading
  let v := scale2f pc.1 (-1)
  if ¬pc.2 = true then add2f v (scale2f (normalize2f v) 3) else v

/-- Simple-mode layout (the non-automatic branch of layoutDatablocks):
every visible aircraft is placed only with respect to its own track; a
non-zero manual offset wins and zeroes the automatic offset. -/
def layoutSimple (ctx : PaneCtx) (rs : RadarScopePane) : RadarScopePane :=
  { rs with
    aircraft := rs.aircraft.map (fun p =>
      if ¬visible ctx rs p.1 then p
      else if p.2.datablockManualOffset.1 ≠ 0 ∨ p.2.datablockManualOffset.2 ≠ 0 then
        (p.1, { p.2 with datablockAutomaticOffset := (0, 0) })
      else
        (p.1,
          { p.2 with datablockAutomaticOffset := offsetSelfOnly ctx rs (ctx.acData p.1) p.2 })) }

/-- One slot of the automatic layout working arrays: the aircraft, its
scope state, its entry of the datablockBounds array and its placed flag. -/
structure LayoutEntry where
  id : AircraftId
  ac : Aircraft
  state : AircraftScopeState
  bounds : Extent2D := ⟨(0, 0), (0, 0)⟩
  placed : Bool := false

instance : Inhabited LayoutEntry := ⟨⟨0, {}, {}, ⟨(0, 0), (0, 0)⟩, false⟩⟩

/-- The entry has a non-zero manual offset (the test the layout passes
make on datablockManualOffset). -/
def manualNZ (e : LayoutEntry) : Prop :=
  e.state.datablockManualOffset.1 ≠ 0 ∨ e.state.datablockManualOffset.2 ≠ 0

/-- The actual on-screen padded bounds of an entry under its current
offsets: WindowDatablockBounds at the window-projected track position,
expanded by the 5 px margin. -/
def windowPadded (ctx : PaneCtx) (e : LayoutEntry) : Extent2D :=
  (e.state.WindowDatablockBounds (ctx.windowFromLatLong e.ac.position)).Expand 5

/-- The working list the automatic layout runs on: the visible aircraft
that are on screen (or within 100 px of it), sorted by callsign for a
frame-stable iteration order. -/
def buildLayoutEntries (ctx : PaneCtx) (rs : RadarScopePane) : List LayoutEntry :=
  let vis :=
    FilterSlice
      (fun p =>
        visible ctx rs p.1 ∧
          (ctx.windowFromLatLong (ctx.acData p.1).position).1 > -100 ∧
          (ctx.windowFromLatLong (ctx.acData p.1).position).1 < ctx.paneWidth + 100 ∧
          (ctx.windowFromLatLong (ctx.acData p.1).position).2 > -100 ∧
          (ctx.windowFromLatLong (ctx.acData p.1).position).2 < ctx.paneHeight + 100)
      rs.aircraft
  List.insertionSort (fun a b => a.ac.callsign ≤ b.ac.callsign)
    (vis.map (fun p => { id := p.1, ac := ctx.acData p.1, state := p.2 }))

/-- First layout pass: every aircraft with a manual offset is placed where
it is, unconditionally; its bounds join the overlap tests but never move. -/
def layoutPass1 (ctx : PaneCtx) (es : List LayoutEntry) : List LayoutEntry :=
  es.map (fun e =>
    if e.state.datablockManualOffset.1 ≠ 0 ∨ e.state.datablockManualOffset.2 ≠ 0 then
      { e with bounds := windowPadded ctx e, placed := true }
    else e)

/-- The allowed test of the second pass: the candidate bounds must not
overlap the bounds of any already-placed entry. -/
def allowedAgainst (es : List LayoutEntry) (b : Extent2D) : Prop :=
  ∀ e ∈ es, e.placed = true → ¬Overlaps b e.bounds

/-- Second layout pass, one entry at a time over the zipper done/todo (the
array of the Go code, split at the loop index): an unplaced entry gets its
heading-based ideal offset if that placement does not overlap any placed
entry, otherwise it stays unplaced. -/
def layoutPass2Aux (ctx : PaneCtx) (rs : RadarScopePane) (done : List LayoutEntry) :
    List LayoutEntry → List LayoutEntry
  | [] => done
  | e :: rest =>
    if e.placed = true then layoutPass2Aux ctx rs (done ++ [e]) rest
    else
      let offset := offsetSelfOnly ctx rs e.ac e.state
      let netOffset := sub2f offset e.state.datablockAutomaticOffset
      let pw := ctx.windowFromLatLong e.ac.position
      let db := ((e.state.WindowDatablockBounds pw).Expand 5).Offset netOffset
      if allowedAgainst (done ++ e :: rest) db then
        layoutPass2Aux ctx rs
          (done ++
            [{ e with
                placed := true,
                bounds := db,
                state := { e.state with datablockAutomaticOffset := offset } }])
          rest
      else layoutPass2Aux ctx rs (done ++ [e]) rest

/-- Second layout pass over the whole list. -/
def layoutPass2 (ctx : PaneCtx) (rs : RadarScopePane) (es : List LayoutEntry) :
    List LayoutEntry :=
  layoutPass2Aux ctx rs [] es

/-- Third layout pass: an unplaced entry that has never been laid out
(automatic offset still zero) starts from its heading-based ideal offset;
otherwise it keeps the offset it ended up with last frame. -/
def layoutPass3 (ctx : PaneCtx) (rs : RadarScopePane) (es : List LayoutEntry) :
    List LayoutEntry :=
  es.map (fun e =>
    if e.placed = true then e
    else if e.state.datablockAutomaticOffset.1 = 0 ∧ e.state.datablockAutomaticOffset.2 = 0 then
      { e with
        state := { e.state with datablockAutomaticOffset := offsetSelfOnly ctx rs e.ac e.state } }
    else e)

/-- Initialization of the bounds array for the unplaced entries before the
force relaxation. -/
def initUnplacedBounds (ctx : PaneCtx) (es : List LayoutEntry) : List LayoutEntry :=
  es.map (fun e =>
    if e.placed = true then e
    else { e with bounds := windowPadded ctx e })

/-- One force-relaxation iteration (the 20-iteration loop of
layoutDatablocks): each unplaced entry accumulates a unit repulsion from
every other entry whose recorded bounds overlap its own, scaled by the
step factor 2 and clamped to magnitude 32, and applies it to its automatic
offset.  As in the source, the recorded bounds array is written back
unchanged, so the bounds the overlap tests read never move during this
phase.  relaxEntry is the body of the loop for the entry at index i. -/
def relaxEntry (es : List LayoutEntry) (i : ℕ) (e : LayoutEntry) : LayoutEntry :=
  if e.placed = true then e
  else
    let db := e.bounds
    let force :=
      es.enum.foldl
        (fun f jb =>
          if i = jb.1 ∨ ¬Overlaps db jb.2.bounds then f
          else add2f f (normalize2f (sub2f db.Center jb.2.bounds.Center)))
        ((0 : ℝ), (0 : ℝ))
    let force := scale2f force 2
    let force :=
      if length2f force > 32 then scale2f force (32 / length2f force) else force
    { e with
      state :=
        { e.state with
          datablockAutomaticOffset := add2f e.state.datablockAutomaticOffset force } }

/-- One force-relaxation iteration over the whole entry list. -/
def relaxIter (es : List LayoutEntry) : List LayoutEntry :=
  es.enum.map (fun ie => relaxEntry es ie.1 ie.2)

/-- One entry of the attraction pull-in pass: an unplaced entry whose
offset is at least one unit from its heading-based ideal takes a unit step
toward it, accepted only when the moved bounds overlap no other entry's
current bounds. -/
def attractEntry (ctx : PaneCtx) (rs : RadarScopePane) (others : List LayoutEntry)
    (e : LayoutEntry) : LayoutEntry × Bool :=
  if e.placed = true then (e, false)
  else
    let goBack :=
      sub2f (offsetSelfOnly ctx rs e.ac e.state) e.state.datablockAutomaticOffset
    if length2f goBack < 1 then (e, false)
    else
      let force := normalize2f goBack
      let dbMoved := e.bounds.Offset force
      if ∀ o ∈ others, ¬Overlaps dbMoved o.bounds then
        ({ e with
            bounds := dbMoved,
            state :=
              { e.state with
                datablockAutomaticOffset :=
                  add2f e.state.datablockAutomaticOffset force } },
          true)
      else (e, false)

/-- One full attraction pass over the zipper done/todo, reporting whether
any entry moved. -/
def attractPassAux (ctx : PaneCtx) (rs : RadarScopePane) (done : List LayoutEntry) :
    List LayoutEntry → List LayoutEntry × Bool
  | [] => (done, false)
  | e :: rest =>
    let em := attractEntry ctx rs (done ++ rest) e
    let rm := attractPassAux ctx rs (done ++ [em.1]) rest
    (rm.1, em.2 || rm.2)

/-- One full attraction pass over the whole list. -/
def attractPass (ctx : PaneCtx) (rs : RadarScopePane) (es : List LayoutEntry) :
    List LayoutEntry × Bool :=
  attractPassAux ctx rs [] es

/-- Number of unit attraction steps an entry can still take: the ceiling
of its distance to its heading-based ideal offset. -/
def entryCeilDist (ctx : PaneCtx) (rs : RadarScopePane) (e : LayoutEntry) : ℕ :=
  Nat.ceil
    (length2f (sub2f (offsetSelfOnly ctx rs e.ac e.state) e.state.datablockAutomaticOffset))

/-- Termination measure of the attraction loop: total remaining unit
steps over all entries. -/
def attractMeasure (ctx : PaneCtx) (rs : RadarScopePane) (es : List LayoutEntry) : ℕ :=
  (es.map (entryCeilDist ctx rs)).sum

/-- The attraction loop with an explicit fuel budget: repeat full passes
until a pass moves nothing (the source loops without a bound; the
termination theorem shows the budget below always suffices, so this is the
same loop). -/
def attractLoopFuel (ctx : PaneCtx) (rs : RadarScopePane) :
    ℕ → List LayoutEntry → List LayoutEntry
  | 0, es => es
  | n + 1, es =>
    let p := attractPass ctx rs es
    if p.2 = true then attractLoopFuel ctx rs n p.1 else es

/-- The attraction pull-in loop of layoutDatablocks, run with the
provably sufficient budget. -/
def attractLoop (ctx : PaneCtx) (rs : RadarScopePane) (es : List LayoutEntry) :
    List LayoutEntry :=
  attractLoopFuel ctx rs (attractMeasure ctx rs es + 1) es

/-- The four automatic-layout passes in order: manual placement, greedy
ideal placement, offset initialization, bounds initialization, exactly 20
force-relaxation iterations, then the attraction pull-in loop. -/
def layoutPipeline (ctx : PaneCtx) (rs : RadarScopePane) (es : List LayoutEntry) :
    List LayoutEntry :=
  attractLoop ctx rs
    (relaxIter^[20]
      (initUnplacedBounds ctx (layoutPass3 ctx rs (layoutPass2 ctx rs (layoutPass1 ctx es)))))

/-- The datablock layout engine (scope-generic.go layoutDatablocks):
simple mode when automatic layout is off, otherwise the pipeline over the
visible on-screen entries with the resulting states written back to the
store. -/
def layoutDatablocks (ctx : PaneCtx) (rs : RadarScopePane) : RadarScopePane :=
  if ¬rs.AutomaticDatablockLayout = true then layoutSimple ctx rs
  else
    { rs with
      aircraft := rs.aircraft.map (fun p =>
        match
          firstWhere (fun e => e.id = p.1) (layoutPipeline ctx rs (buildLayoutEntries ctx rs))
        with
        | some e => (p.1, e.state)
        | none => p) }

/-- Output state of one frame of Draw: the pane plus the per-frame
outputs (phase log, audio events, external actions, MIT lines, drawn
datablocks). -/
structure FrameState where
  pane : RadarScopePane
  log : List DrawPhase := []
  audio : List AudioEvent := []
  actions : List PaneAction := []
  mitLines : List MITLine := []
  drawn : List AircraftId := []

/-- The per-frame pass (scope-generic.go Draw), with the engine-relevant
calls in the order the source makes them: processEvents, the track
rendering, drawTools (which runs the conflict detector and then the MIT
sequencer, and is skipped whole for thumbnails), the datablock text
update, the datablock layout, the datablock rendering, the vector lines,
and the mouse handling last so the datablock bounds are current. -/
def Draw (ctx : PaneCtx) (fs : FrameState) : FrameState :=
  let fs1 :=
    { fs with pane := processEvents ctx fs.pane ctx.events, log := fs.log ++ [DrawPhase.sync] }
  let fs2 := { fs1 with log := fs1.log ++ [DrawPhase.tracks] }
  let fs3 :=
    if ctx.thumbnail = true then fs2
    else
      let pr := drawRangeIndicators ctx fs2.pane
      let fsa :=
        { fs2 with
          pane := pr.1,
          audio := fs2.audio ++ pr.2,
          log := fs2.log ++ [DrawPhase.rangeIndicators] }
      { fsa with mitLines := drawMIT ctx fsa.pane, log := fsa.log ++ [DrawPhase.mit] }
  let fs4 :=
    { fs3 with
      pane := updateDatablockTextAndBounds ctx fs3.pane,
      log := fs3.log ++ [DrawPhase.textUpdate] }
  let fs5 :=
    { fs4 with pane := layoutDatablocks ctx fs4.pane, log := fs4.log ++ [DrawPhase.layout] }
  let fs6 :=
    { fs5 with drawn := drawDatablocks ctx fs5.pane, log := fs5.log ++ [DrawPhase.datablocks] }
  let fs7 := { fs6 with log := fs6.log ++ [DrawPhase.vectorLines] }
  let pm := consumeMouseEvents ctx fs7.pane
  { fs7 with
    pane := pm.1,
    actions := fs7.actions ++ pm.2,
    log := fs7.log ++ [DrawPhase.mouse] }

/-- The in-trail predicate as the claim sentence words it, kept for
comparison with the source predicate: the difference between the
processed (trailing) aircraft's own heading and the bearing from it to the
candidate leading aircraft under 150 degrees, and the absolute altitude
difference under 3000 ft. -/
def inTrailSpec (ctx : PaneCtx) (trailing leading : Arrival) : Prop :=
  headingDifference (ctx.acData trailing.aircraft).heading
      (ctx.headingp2ll (ctx.acData trailing.aircraft).position
        (ctx.acData leading.aircraft).position ctx.MagneticVariation) < 150 ∧
    |(ctx.acData trailing.aircraft).altitude - (ctx.acData leading.aircraft).altitude| < 3000

/-- A frame context with inert external collaborators, the base of the
concrete scenarios below. -/
def trivialCtx : PaneCtx where
  acData := fun _ => {}
  nmdistance2ll := fun _ _ => 0
  headingp2ll := fun _ _ _ => 0
  estimatedFutureDistance := fun _ _ _ => 0
  windowFromLatLong := fun p => p
  latLongFromWindow := fun p => p
  dmsString := fun _ => ""
  getGhost := fun _ => none
  getConflicts := fun _ => ([], [])
  formatDatablock := fun _ _ _ => ""
  boundText := fun _ => (0, 0)
  allAircraft := []
  airportLocation := fun _ => (0, 0)
  updateScopePosition := fun c r => (c, r)
  paneWidth := 1000
  paneHeight := 1000
  realNow := 0

/-- Scenario for the Removed-event claim: aircraft 5 has ghost 7 and is
referenced by a min-sep line, a range-bearing line, the MIT list and the
datablock selection. -/
def rsRemoved : RadarScopePane :=
  { aircraft := [(5, {}), (7, { isGhost := true })],
    ghostAircraft := [(5, 7)],
    minSepLines := [(5, 9)],
    rangeBearingLines := [⟨5, (0, 0)⟩],
    mitList := [5],
    acSelectedByDatablock := some 5 }

/-- Scenario for the Modified-event claim: aircraft 3 is known with a
current datablock text; aircraft 4 is unknown. -/
def rsModified : RadarScopePane :=
  { aircraft := [(3, { datablockTextCurrent := true })] }

/-- The violation list a frame computes, as drawRangeIndicators builds it:
the external conflict computation applied to the visible non-ghost
aircraft. -/
def violationsOf (ctx : PaneCtx) (rs : RadarScopePane) : List (AircraftId × AircraftId) :=
  (ctx.getConflicts
      ((FilterSlice (fun p => ¬p.2.isGhost = true ∧ visible ctx rs p.1) rs.aircraft).map
        (fun p => p.1))).2

/-- Scenario for the conflict-alert claim: one violation pair, current
frame time 10, last alert at time 0. -/
def ctxAlert : PaneCtx :=
  { trivialCtx with getConflicts := fun _ => ([], [(1, 2)]), realNow := 10 }

/-- Pane for the conflict-alert claim, with range indicators enabled. -/
def rsAlert : RadarScopePane :=
  { DrawRangeIndicators := true }

/-- Scenario for the ghost-visibility claim: aircraft 1 is the CRDA ghost
of aircraft 0 and flies above the pane's altitude band. -/
def ctxGhost : PaneCtx :=
  { trivialCtx with acData := fun a => if a = 1 then { altitude := 99999 } else {} }

/-- Pane for the ghost-visibility claim: CRDA enabled, ghost 1 present in
the store and associated with aircraft 0. -/
def rsGhost : RadarScopePane :=
  { CRDAEnabled := true,
    aircraft := [(1, { isGhost := true })],
    ghostAircraft := [(0, 1)] }

/-- Scenario for the in-trail claim: aircraft 0 at the origin and aircraft
1 one unit north, both heading north at the same altitude, bound for the
same airport; the bearing collaborator reports 0 for a northward look and
180 for a southward look. -/
def ctxTrail : PaneCtx :=
  { trivialCtx with
    acData := fun a =>
      if a = 0 then
        { heading := 0, altitude := 1000, position := (0, 0), arrivalAirport := some "A" }
      else
        { heading := 0, altitude := 1000, position := (0, 1), arrivalAirport := some "A" },
    headingp2ll := fun p q _ => if p.2 < q.2 then 0 else 180 }

/-- Scenario for the 20 nm cutoff claim: two arrivals for airport A that
the distance collaborator reports 50 nm apart. -/
def ctxFar : PaneCtx :=
  { trivialCtx with
    acData := fun _ => { position := (1, 1), arrivalAirport := some "A" },
    nmdistance2ll := fun _ _ => 50,
    allAircraft := [0, 1] }

/-- Pane for the 20 nm cutoff claim: automatic MIT mode for airport A. -/
def rsFar : RadarScopePane :=
  { AutoMIT := true, AutoMITAirports := ["A"] }

/-- Scenario for the datablock-drag claim: the datablock of aircraft 0 is
mid-drag with per-frame delta (10, -4). -/
def ctxDrag : PaneCtx :=
  { trivialCtx with mouse := some { dragDelta := (10, -4), draggingPrimary := true } }

/-- Pane for the datablock-drag claim: aircraft 0 selected by datablock,
with automatic offset (5, 5) and no manual offset. -/
def rsDrag : RadarScopePane :=
  { acSelectedByDatablock := some 0,
    aircraft := [(0, { datablockAutomaticOffset := (5, 5) })] }

/-- The padding invariant relation between two layout entries as the code
maintains it: two placed entries that do not both carry manual offsets
have non-overlapping recorded bounds. -/
def layoutInv (e1 e2 : LayoutEntry) : Prop :=
  e1.placed = true → e2.placed = true → ¬(manualNZ e1 ∧ manualNZ e2) →
    ¬Overlaps e1.bounds e2.bounds

/-- The padding invariant as the claim states it, with no exemption for
manually offset labels (unplaced entries are the claim's cap-exempt
labels). -/
def layoutInvClaimed (e1 e2 : LayoutEntry) : Prop :=
  e1.placed = true → e2.placed = true → ¬Overlaps e1.bounds e2.bounds

/-- Evolution of one entry across a layout phase that leaves placed
entries untouched. -/
def layoutPres (a b : LayoutEntry) : Prop :=
  a.placed = b.placed ∧ (a.placed = true → b = a)

/-- Scope state of the manual-offset scenario: manual offset (1, 1) and a
20 by 10 text box. -/
def stManual : AircraftScopeState :=
  { datablockManualOffset := (1, 1), datablockBounds := ⟨(0, -10), (20, 0)⟩ }

/-- Context of the manual-offset scenario: every aircraft reports callsign
A at the origin. -/
def ctxManual : PaneCtx :=
  { trivialCtx with acData := fun _ => { callsign := "A" } }

/-- Pane of the manual-offset scenario: automatic layout enabled, two
aircraft both carrying manual offset (1, 1) at the same position. -/
def rsManual : RadarScopePane :=
  { AutomaticDatablockLayout := true, aircraft := [(0, stManual), (1, stManual)] }

/-- The layout entry the manual scenario starts from for aircraft a. -/
def entManualInit (a : AircraftId) : LayoutEntry :=
  { id := a, ac := { callsign := "A" }, state := stManual }

/-- The layout entry the manual scenario ends at: placed in pass 1 at the
manual offset, with padded window bounds around the offset text box. -/
def entManualPlaced (a : AircraftId) : LayoutEntry :=
  { id := a, ac := { callsign := "A" }, state := stManual,
    bounds := ⟨(-4, -14), (26, 6)⟩, placed := true }

theorem mapLookup_erase_self {β : Type} (k : AircraftId) (m : List (AircraftId × β)) :
    mapLookup k (mapErase k m) = none := by
  induction m with
  | nil => rfl
  | cons p rest ih =>
    obtain ⟨k2, v⟩ := p
    by_cases h : k = k2
    · subst h
      simp [mapErase, ih]
    · simp [mapErase, mapLookup, h, ih]

theorem mapLookup_erase_ne {β : Type} {k k2 : AircraftId} (h : k ≠ k2)
    (m : List (AircraftId × β)) : mapLookup k (mapErase k2 m) = mapLookup k m := by
  induction m with
  | nil => rfl
  | cons p rest ih =>
    obtain ⟨k3, v⟩ := p
    by_cases h2 : k2 = k3
    · subst h2
      simp [mapErase, mapLookup, h, ih]
    · simp only [mapErase, mapLookup, if_neg h2]
      by_cases h3 : k = k3
      · simp [mapLookup, h3]
      · simp [mapLookup, h3, ih]

theorem mapLookup_insert_self {β : Type} (k : AircraftId) (v : β)
    (m : List (AircraftId × β)) : mapLookup k (mapInsert k v m) = some v := by
  simp [mapInsert, mapLookup]

theorem mapLookup_insert_ne {β : Type} {k k2 : AircraftId} (h : k ≠ k2) (v : β)
    (m : List (AircraftId × β)) : mapLookup k (mapInsert k2 v m) = mapLookup k m := by
  simp [mapInsert, mapLookup, h, mapLookup_erase_ne h]

theorem mapLookup_update_self {β : Type} (k : AircraftId) (f : β → β)
    (m : List (AircraftId × β)) :
    mapLookup k (mapUpdate k f m) = (mapLookup k m).map f := by
  induction m with
  | nil => rfl
  | cons p rest ih =>
    obtain ⟨k2, v⟩ := p
    by_cases h : k2 = k
    · subst h
      simp [mapUpdate, mapLookup, ih]
    · have h2 : k ≠ k2 := fun hh => h hh.symm
      simp [mapUpdate, mapLookup, h, h2, ih]

theorem mem_FilterSlice {α : Type} (p : α → Prop) (l : List α) (a : α) :
    a ∈ FilterSlice p l ↔ a ∈ l ∧ p a := by
  induction l with
  | nil => simp [FilterSlice]
  | cons b rest ih =>
    by_cases h : p b
    · simp only [FilterSlice, if_pos h, List.mem_cons, ih]
      constructor
      · rintro (rfl | ⟨ha, hp⟩)
        · exact ⟨Or.inl rfl, h⟩
        · exact ⟨Or.inr ha, hp⟩
      · rintro ⟨rfl | ha, hp⟩
        · exact Or.inl rfl
        · exact Or.inr ⟨ha, hp⟩
    · simp only [FilterSlice, if_neg h, List.mem_cons, ih]
      constructor
      · rintro ⟨ha, hp⟩
        exact ⟨Or.inr ha, hp⟩
      · rintro ⟨rfl | ha, hp⟩
        · exact absurd hp h
        · exact ⟨ha, hp⟩

/-- C2: processing a Removed event for aircraft a deletes its scope state;
if it had a ghost, the ghost's state and the ghost association are deleted
in the same synchronization pass; every min-sep line and range-bearing
line referencing a is removed, a leaves the MIT list, and the datablock
selection is cleared if it referenced a. -/
theorem removed_event_purges_aircraft (ctx : PaneCtx) (rs : RadarScopePane) (a : AircraftId) :
    mapLookup a (processEvent ctx rs (ScopeEvent.RemovedAircraftEvent a)).aircraft = none ∧
    (∀ g, mapLookup a rs.ghostAircraft = some g →
      mapLookup g (processEvent ctx rs (ScopeEvent.RemovedAircraftEvent a)).aircraft = none) ∧
    mapLookup a (processEvent ctx rs (ScopeEvent.RemovedAircraftEvent a)).ghostAircraft =
      none ∧
    (∀ l ∈ (processEvent ctx rs (ScopeEvent.RemovedAircraftEvent a)).minSepLines,
      l.1 ≠ a ∧ l.2 ≠ a) ∧
    (∀ l ∈ (processEvent ctx rs (ScopeEvent.RemovedAircraftEvent a)).rangeBearingLines,
      l.ac ≠ a) ∧
    a ∉ (processEvent ctx rs (ScopeEvent.RemovedAircraftEvent a)).mitList ∧
    (processEvent ctx rs (ScopeEvent.RemovedAircraftEvent a)).acSelectedByDatablock ≠
      some a := by
  simp only [processEvent]
  refine ⟨?_, ?_, ?_, ?_, ?_, ?_, ?_⟩
  · exact mapLookup_erase_self _ _
  · intro g hg
    simp only [hg]
    by_cases hga : g = a
    · subst hga
      exact mapLookup_erase_self _ _
    · rw [mapLookup_erase_ne hga]
      exact mapLookup_erase_self _ _
  · exact mapLookup_erase_self _ _
  · intro l hl
    exact ((mem_FilterSlice _ _ _).1 hl).2
  · intro l hl
    exact ((mem_FilterSlice _ _ _).1 hl).2
  · intro hmem
    exact ((mem_FilterSlice _ _ _).1 hmem).2 rfl
  · by_cases hsel : rs.acSelectedByDatablock = some a
    · simp [hsel]
    · simp [hsel]

/-- Witness for the Removed-event theorem at a concrete scenario:
removing aircraft 5, which has ghost 7, deletes the states of both. -/
theorem removed_event_purges_aircraft_witness :
    mapLookup 5 (processEvent trivialCtx rsRemoved
        (ScopeEvent.RemovedAircraftEvent 5)).aircraft = none ∧
    mapLookup 7 (processEvent trivialCtx rsRemoved
        (ScopeEvent.RemovedAircraftEvent 5)).aircraft = none := by
  have h := removed_event_purges_aircraft trivialCtx rsRemoved 5
  exact ⟨h.1, h.2.1 7 rfl⟩

/-- C7: a Modified event referencing an unknown aircraft creates a fresh
scope state (a late Add) rather than discarding the event; for a known
aircraft it instead clears the datablockTextCurrent flag.  The two
freshness hypotheses record that a ghost identifier never equals its
source aircraft (Go ghosts are freshly allocated objects). -/
theorem modified_event_late_add (ctx : PaneCtx) (rs : RadarScopePane) (a : AircraftId)
    (h1 : ∀ g, mapLookup a rs.ghostAircraft = some g → g ≠ a)
    (h2 : ∀ g, ctx.getGhost a = some g → g ≠ a) :
    (mapLookup a rs.aircraft = none →
      mapLookup a (processEvent ctx rs (ScopeEvent.ModifiedAircraftEvent a)).aircraft =
        some {}) ∧
    (∀ st, mapLookup a rs.aircraft = some st →
      mapLookup a (processEvent ctx rs (ScopeEvent.ModifiedAircraftEvent a)).aircraft =
        some { st with datablockTextCurrent := false }) := by
  simp only [processEvent]
  by_cases hc : rs.CRDAEnabled = true
  · cases hg : mapLookup a rs.ghostAircraft with
    | none =>
      simp only [hc, hg, if_true]
      cases hl : mapLookup a rs.aircraft with
      | none =>
        refine ⟨fun _ => ?_, fun st hst => ?_⟩
        · cases hgg : ctx.getGhost a with
          | none => simp [hl, hgg, apply_ite, mapLookup_insert_self, hc]
          | some g2 =>
            have hg2 : a ≠ g2 := fun hh => (h2 g2 hgg) hh.symm
            simp [hl, hgg, apply_ite, hc, mapLookup_insert_ne hg2, mapLookup_insert_self]
        · exact absurd hst (by simp)
      | some st0 =>
        refine ⟨fun hnone => ?_, fun st hst => ?_⟩
        · exact absurd hnone (by simp)
        · injection hst with hst
          subst hst
          cases hgg : ctx.getGhost a with
          | none => simp [hl, hgg, apply_ite, hc, mapLookup_update_self]
          | some g2 =>
            have hg2 : a ≠ g2 := fun hh => (h2 g2 hgg) hh.symm
            simp [hl, hgg, apply_ite, hc, mapLookup_insert_ne hg2, mapLookup_update_self]
    | some g =>
      have hga : a ≠ g := fun hh => (h1 g hg) hh.symm
      simp only [hc, hg, if_true]
      cases hl : mapLookup a rs.aircraft with
      | none =>
        have hl2 : mapLookup a (mapErase g rs.aircraft) = none := by
          rw [mapLookup_erase_ne hga, hl]
        refine ⟨fun _ => ?_, fun st hst => ?_⟩
        · cases hgg : ctx.getGhost a with
          | none => simp [hl2, hgg, apply_ite, hc, mapLookup_insert_self]
          | some g2 =>
            have hg2 : a ≠ g2 := fun hh => (h2 g2 hgg) hh.symm
            simp [hl2, hgg, apply_ite, hc, mapLookup_insert_ne hg2, mapLookup_insert_self]
        · exact absurd hst (by simp)
      | some st0 =>
        have hl2 : mapLookup a (mapErase g rs.aircraft) = some st0 := by
          rw [mapLookup_erase_ne hga, hl]
        refine ⟨fun hnone => ?_, fun st hst => ?_⟩
        · exact absurd hnone (by simp)
        · injection hst with hst
          subst hst
          cases hgg : ctx.getGhost a with
          | none =>
            simp [hl2, hgg, apply_ite, hc, mapLookup_update_self]
          | some g2 =>
            have hg2 : a ≠ g2 := fun hh => (h2 g2 hgg) hh.symm
            simp [hl2, hgg, apply_ite, hc, mapLookup_insert_ne hg2, mapLookup_update_self]
  · simp only [hc, if_false]
    cases hl : mapLookup a rs.aircraft with
    | none =>
      refine ⟨fun _ => ?_, fun st hst => ?_⟩
      · simp [hl, hc, apply_ite, mapLookup_insert_self]
      · exact absurd hst (by simp)
    | some st0 =>
      refine ⟨fun hnone => ?_, fun st hst => ?_⟩
      · exact absurd hnone (by simp)
      · injection hst with hst
        subst hst
        simp [hl, hc, apply_ite, mapLookup_update_self]

/-- Witness for the Modified-event theorem at a concrete scenario: the
unknown aircraft 4 gets a fresh state, the known aircraft 3 keeps its
state with the cache flag cleared. -/
theorem modified_event_late_add_witness :
    mapLookup 4 (processEvent trivialCtx rsModified
        (ScopeEvent.ModifiedAircraftEvent 4)).aircraft = some {} ∧
    mapLookup 3 (processEvent trivialCtx rsModified
        (ScopeEvent.ModifiedAircraftEvent 3)).aircraft =
      some { datablockTextCurrent := false } := by
  have h4 := modified_event_late_add trivialCtx rsModified 4
    (by intro g hg; exact absurd hg (by simp [rsModified, mapLookup]))
    (by intro g hg; exact absurd hg (by simp [trivialCtx]))
  have h3 := modified_event_late_add trivialCtx rsModified 3
    (by intro g hg; exact absurd hg (by simp [rsModified, mapLookup]))
    (by intro g hg; exact absurd hg (by simp [trivialCtx]))
  refine ⟨h4.1 rfl, ?_⟩
  have := h3.2 { datablockTextCurrent := true } rfl
  simpa using this

/-- C8: with range indicators enabled, the frame fires exactly one
conflict-alert audio event when the violation set is non-empty and more
than 3 seconds have passed since the last alert, and fires none otherwise,
never one per violation; moreover a subsequent frame within 3 seconds of a
fired alert fires none. -/
theorem conflict_alert_once_per_window (ctx : PaneCtx) (rs : RadarScopePane)
    (h1 : rs.DrawRangeIndicators = true) :
    ((violationsOf ctx rs ≠ [] ∧ ctx.realNow - rs.lastRangeNotificationPlayed > 3) →
      (drawRangeIndicators ctx rs).2 = [AudioEvent.conflictAlert] ∧
        (drawRangeIndicators ctx rs).1.lastRangeNotificationPlayed = ctx.realNow) ∧
    (¬(violationsOf ctx rs ≠ [] ∧ ctx.realNow - rs.lastRangeNotificationPlayed > 3) →
      (drawRangeIndicators ctx rs).2 = []) ∧
    (drawRangeIndicators ctx rs).2.length ≤ 1 ∧
    (∀ ctx2 : PaneCtx, ctx2.realNow ≤ ctx.realNow + 3 →
      (violationsOf ctx rs ≠ [] ∧ ctx.realNow - rs.lastRangeNotificationPlayed > 3) →
      (drawRangeIndicators ctx2 (drawRangeIndicators ctx rs).1).2 = []) := by
  have hne : ¬(¬rs.DrawRangeIndicators = true) := by simp [h1]
  by_cases hcond :
      violationsOf ctx rs ≠ [] ∧ ctx.realNow - rs.lastRangeNotificationPlayed > 3
  · have hfired :
        drawRangeIndicators ctx rs =
          (({ rs with
              rangeWarnings :=
                ((ctx.getConflicts
                        ((FilterSlice (fun p => ¬p.2.isGhost = true ∧ visible ctx rs p.1)
                              rs.aircraft).map (fun p => p.1))).1 ++
                      (ctx.getConflicts
                        ((FilterSlice (fun p => ¬p.2.isGhost = true ∧ visible ctx rs p.1)
                              rs.aircraft).map (fun p => p.1))).2).foldl
                  (fun m p => (p.2, p.1) :: (p.1, p.2) :: m) [],
              lastRangeNotificationPlayed := ctx.realNow } : RadarScopePane),
            [AudioEvent.conflictAlert]) := by
      rw [drawRangeIndicators, if_neg hne, if_pos]
      exact hcond
    refine ⟨fun _ => ?_, fun hc => absurd hcond hc, ?_, ?_⟩
    · rw [hfired]
      exact ⟨rfl, rfl⟩
    · rw [hfired]
      simp
    · intro ctx2 hle _
      rw [hfired]
      rw [drawRangeIndicators]
      rw [if_neg (by simp [h1])]
      rw [if_neg]
      intro hc2
      have h3 := hc2.2
      simp only at h3
      linarith
  · have hnofire : (drawRangeIndicators ctx rs).2 = [] := by
      rw [drawRangeIndicators, if_neg hne, if_neg]
      exact hcond
    refine ⟨fun hc => absurd hc hcond, fun _ => hnofire, ?_,
      fun ctx2 _ hc => absurd hc hcond⟩
    rw [hnofire]
    simp

/-- Witness for the conflict-alert theorem at the concrete alert
scenario: one violation at frame time 10 with the last alert at time 0
fires exactly the single conflict alert. -/
theorem conflict_alert_once_per_window_witness :
    (drawRangeIndicators ctxAlert rsAlert).2 = [AudioEvent.conflictAlert] := by
  have h := conflict_alert_once_per_window ctxAlert rsAlert rfl
  refine (h.1 ⟨?_, ?_⟩).1
  · simp [violationsOf, ctxAlert, trivialCtx]
  · show ctxAlert.realNow - rsAlert.lastRangeNotificationPlayed > 3
    norm_num [ctxAlert, rsAlert, trivialCtx]

/-- C5 counterexample: ghost 1 of aircraft 0 is in the store with CRDA
enabled and its source eligible, yet it is not drawn, because its own
altitude fails the pane's altitude band — so ghost visibility is not
independent of the altitude/range/staleness filter. -/
theorem ghost_visibility_counterexample :
    ¬((1 ∈ drawDatablocks ctxGhost rsGhost) ↔
      (rsGhost.CRDAEnabled = true ∧ mapLookup 0 rsGhost.ghostAircraft = some 1)) := by
  intro h
  have hv : ¬visible ctxGhost rsGhost 1 := by
    intro hvv
    simp only [visible] at hvv
    have halt := hvv.2.2.1
    norm_num [ctxGhost, trivialCtx, rsGhost] at halt
  have h3 : drawDatablocks ctxGhost rsGhost = [] := by
    have ha : rsGhost.aircraft = [(1, { isGhost := true })] := rfl
    simp [drawDatablocks, ha, List.insertionSort, List.orderedInsert, FilterSlice, hv]
  have h2 := h.2 ⟨rfl, rfl⟩
  rw [h3] at h2
  exact absurd h2 (List.not_mem_nil 1)

/-- C5 amended: every entry of the store, ghost or not, is drawn exactly
when it passes the same per-aircraft visibility predicate and its
datablock bounds overlap the pane — ghosts receive no exemption from the
altitude band, range and track-staleness filter. -/
theorem datablock_draw_same_filter (ctx : PaneCtx) (rs : RadarScopePane) (a : AircraftId) :
    a ∈ drawDatablocks ctx rs ↔
      a ∈ rs.aircraft.map (fun p => p.1) ∧
        (visible ctx rs a ∧
          Overlaps ⟨(0, 0), (ctx.paneWidth, ctx.paneHeight)⟩
            ((mapGetD a rs.aircraft).WindowDatablockBounds
              (ctx.windowFromLatLong (ctx.acData a).position))) := by
  simp only [drawDatablocks]
  rw [mem_FilterSlice]
  constructor
  · rintro ⟨hmem, hp⟩
    exact ⟨(List.perm_insertionSort _ _).mem_iff.1 hmem, hp⟩
  · rintro ⟨hmem, hp⟩
    exact ⟨(List.perm_insertionSort _ _).mem_iff.2 hmem, hp⟩

/-- C4 counterexample: aircraft 1 one unit north of aircraft 0, both
northbound at equal altitude and bound for the same airport.  Read as the
claim words it (the trailing aircraft's own heading against the bearing
from it to the leading candidate, absolute altitude difference) the pair
is in-trail, but the source predicate, which uses the candidate's heading
and the bearing from the candidate back to the processed aircraft,
rejects it (180 degrees). -/
theorem in_trail_predicate_counterexample :
    ¬(inTrail ctxTrail ⟨0, 0, 0⟩ ⟨1, 0, 0⟩ ↔ inTrailSpec ctxTrail ⟨0, 0, 0⟩ ⟨1, 0, 0⟩) := by
  intro h
  have hspec : inTrailSpec ctxTrail ⟨0, 0, 0⟩ ⟨1, 0, 0⟩ := by
    simp only [inTrailSpec, ctxTrail, trivialCtx]
    norm_num [headingDifference]
  have hcode := h.2 hspec
  simp only [inTrail, ctxTrail, trivialCtx] at hcode
  norm_num [headingDifference] at hcode

/-- C4 amended: in the automatic MIT scan a candidate (back) qualifies as
in-trail of the processed arrival (front) exactly when the difference
between the candidate's own heading and the bearing from the candidate to
the processed aircraft is under 150 degrees and the candidate's altitude
minus the processed aircraft's altitude (signed) is under 3000 ft. -/
theorem in_trail_predicate_characterization (ctx : PaneCtx) (front back : Arrival) :
    inTrail ctx front back ↔
      (headingDifference (ctx.acData back.aircraft).heading
          (ctx.headingp2ll (ctx.acData back.aircraft).position
            (ctx.acData front.aircraft).position ctx.MagneticVariation) < 150 ∧
        (ctx.acData back.aircraft).altitude - (ctx.acData front.aircraft).altitude < 3000) :=
  Iff.rfl

theorem mitScanStep_minDist_le (ctx : PaneCtx) (ai : Arrival) (i : ℕ) (b : MITBest)
    (ja : ℕ × Arrival) : (mitScanStep ctx ai i b ja).minDist ≤ b.minDist := by
  rw [mitScanStep]
  by_cases h1 : i = ja.1 ∨
      (ctx.acData ja.2.aircraft).arrivalAirport ≠ (ctx.acData ai.aircraft).arrivalAirport
  · rw [if_pos h1]
  · by_cases h2 : ctx.nmdistance2ll (ctx.acData ai.aircraft).position
        (ctx.acData ja.2.aircraft).position < b.minDist ∧ inTrail ctx ai ja.2
    · rw [if_neg h1, if_pos h2]
      exact le_of_lt h2.1
    · rw [if_neg h1, if_neg h2]

theorem mitScan_foldl_minDist (ctx : PaneCtx) (ai : Arrival) (i : ℕ)
    (l : List (ℕ × Arrival)) (b : MITBest) :
    (l.foldl (mitScanStep ctx ai i) b).minDist ≤ b.minDist := by
  induction l generalizing b with
  | nil => exact le_refl _
  | cons ja rest ih =>
    rw [List.foldl_cons]
    exact le_trans (ih _) (mitScanStep_minDist_le ctx ai i b ja)

theorem mitScan_foldl_closest (ctx : PaneCtx) (ai : Arrival) (i : ℕ)
    (l : List (ℕ × Arrival)) (b : MITBest) (c : Arrival)
    (hc : (l.foldl (mitScanStep ctx ai i) b).closest = some c) :
    (b.closest = some c ∧ (l.foldl (mitScanStep ctx ai i) b).minDist = b.minDist) ∨
      (∃ ja ∈ l, ja.2 = c ∧ ¬i = ja.1 ∧
        (ctx.acData c.aircraft).arrivalAirport = (ctx.acData ai.aircraft).arrivalAirport ∧
        inTrail ctx ai c ∧
        (l.foldl (mitScanStep ctx ai i) b).minDist =
          ctx.nmdistance2ll (ctx.acData ai.aircraft).position
            (ctx.acData c.aircraft).position ∧
        (l.foldl (mitScanStep ctx ai i) b).minDist < b.minDist) := by
  induction l generalizing b with
  | nil => exact Or.inl ⟨hc, rfl⟩
  | cons ja rest ih =>
    rw [List.foldl_cons] at hc ⊢
    rcases ih (mitScanStep ctx ai i b ja) hc with ⟨hb2, heq⟩ | ⟨ja2, hmem, h2⟩
    · by_cases h1 : i = ja.1 ∨
          (ctx.acData ja.2.aircraft).arrivalAirport ≠ (ctx.acData ai.aircraft).arrivalAirport
      · rw [mitScanStep, if_pos h1] at hb2 heq ⊢
        exact Or.inl ⟨hb2, heq⟩
      · by_cases h2 :
            ctx.nmdistance2ll (ctx.acData ai.aircraft).position
                (ctx.acData ja.2.aircraft).position < b.minDist ∧ inTrail ctx ai ja.2
        · rw [mitScanStep, if_neg h1, if_pos h2] at hb2 heq ⊢
          simp only at hb2
          injection hb2 with hb2
          push_neg at h1
          subst hb2
          refine Or.inr ⟨ja, List.mem_cons_self _ _, rfl, h1.1, h1.2, h2.2, ?_, ?_⟩
          · rw [heq]
          · rw [heq]
            exact h2.1
        · rw [mitScanStep, if_neg h1, if_neg h2] at hb2 heq ⊢
          exact Or.inl ⟨hb2, heq⟩
    · obtain ⟨hja2c, hne, hap, hit, heq, hlt⟩ := h2
      exact Or.inr ⟨ja2, List.mem_cons_of_mem _ hmem, hja2c, hne, hap, hit, heq,
        lt_of_lt_of_le hlt (mitScanStep_minDist_le ctx ai i b ja)⟩

theorem mitScan_foldl_none (ctx : PaneCtx) (ai : Arrival) (i : ℕ)
    (l : List (ℕ × Arrival)) (b : MITBest) (hb : b.closest = none)
    (h : ∀ ja ∈ l, ¬i = ja.1 →
      (ctx.acData ja.2.aircraft).arrivalAirport = (ctx.acData ai.aircraft).arrivalAirport →
      inTrail ctx ai ja.2 →
      b.minDist ≤ ctx.nmdistance2ll (ctx.acData ai.aircraft).position
        (ctx.acData ja.2.aircraft).position) :
    l.foldl (mitScanStep ctx ai i) b = b := by
  induction l with
  | nil => rfl
  | cons ja rest ih =>
    have hstep : mitScanStep ctx ai i b ja = b := by
      rw [mitScanStep]
      by_cases h1 : i = ja.1 ∨
          (ctx.acData ja.2.aircraft).arrivalAirport ≠ (ctx.acData ai.aircraft).arrivalAirport
      · rw [if_pos h1]
      · by_cases h2 : ctx.nmdistance2ll (ctx.acData ai.aircraft).position
            (ctx.acData ja.2.aircraft).position < b.minDist ∧ inTrail ctx ai ja.2
        · exfalso
          push_neg at h1
          exact absurd h2.1 (not_lt.2 (h ja (List.mem_cons_self _ _) h1.1 h1.2 h2.2))
        · rw [if_neg h1, if_neg h2]
    rw [List.foldl_cons, hstep]
    exact ih (fun ja2 hm => h ja2 (List.mem_cons_of_mem _ hm))

/-- C10: in automatic MIT mode, every drawn annotation pairs the trailing
aircraft with a partner whose measured distance is under the 20 nm cutoff
(the distance being the one between the pair), and an arrival index for
which no other same-airport in-trail arrival lies within 20 nm receives no
pairing. -/
theorem auto_mit_20nm_cutoff (ctx : PaneCtx) (rs : RadarScopePane)
    (hAuto : rs.AutoMIT = true) (hEmpty : rs.mitList = []) :
    (∀ l ∈ drawMIT ctx rs,
        l.dist < 20 ∧
        l.dist = ctx.nmdistance2ll (ctx.acData l.trailing).position
          (ctx.acData l.leading).position) ∧
    (∀ i : ℕ,
      (∀ ja ∈ (getDistanceSortedArrivals ctx rs.AutoMITAirports).enum, ¬i = ja.1 →
        (ctx.acData ja.2.aircraft).arrivalAirport =
          (ctx.acData ((getDistanceSortedArrivals ctx rs.AutoMITAirports).getD i
            default).aircraft).arrivalAirport →
        inTrail ctx ((getDistanceSortedArrivals ctx rs.AutoMITAirports).getD i default)
          ja.2 →
        20 ≤ ctx.nmdistance2ll
          (ctx.acData ((getDistanceSortedArrivals ctx rs.AutoMITAirports).getD i
            default).aircraft).position (ctx.acData ja.2.aircraft).position) →
      (mitScan ctx (getDistanceSortedArrivals ctx rs.AutoMITAirports) i).closest = none) := by
  constructor
  · intro l hl
    rw [drawMIT, if_pos (⟨hAuto, hEmpty⟩ : rs.AutoMIT = true ∧ rs.mitList = [])] at hl
    rw [List.mem_filterMap] at hl
    obtain ⟨i, _, hf⟩ := hl
    rw [drawMITAutoLine] at hf
    cases hbc :
        (mitScan ctx (getDistanceSortedArrivals ctx rs.AutoMITAirports) i).closest with
    | none =>
      rw [hbc] at hf
      exact absurd hf (by simp)
    | some c =>
      rw [hbc] at hf
      simp only at hf
      by_cases hw :
          (((getDistanceSortedArrivals ctx rs.AutoMITAirports).getD i default).aircraft,
            c.aircraft) ∈ rs.rangeWarnings
      · rw [if_pos hw] at hf
        exact absurd hf (by simp)
      · rw [if_neg hw] at hf
        injection hf with hf
        subst hf
        rcases mitScan_foldl_closest ctx
            ((getDistanceSortedArrivals ctx rs.AutoMITAirports).getD i default) i
            (getDistanceSortedArrivals ctx rs.AutoMITAirports).enum {} c hbc with
          ⟨hnone, _⟩ | ⟨ja, _, _, _, _, _, heq, hlt⟩
        · exact absurd hnone (by simp)
        · exact ⟨hlt, heq⟩
  · intro i h
    have := mitScan_foldl_none ctx
      ((getDistanceSortedArrivals ctx rs.AutoMITAirports).getD i default) i
      (getDistanceSortedArrivals ctx rs.AutoMITAirports).enum {} rfl h
    rw [mitScan, this]

/-- Witness for the auto-MIT cutoff theorem: with every pair 50 nm apart,
the scan for arrival index 1 selects nothing. -/
theorem auto_mit_20nm_cutoff_witness :
    (mitScan ctxFar (getDistanceSortedArrivals ctxFar rsFar.AutoMITAirports) 1).closest =
      none := by
  have h := auto_mit_20nm_cutoff ctxFar rsFar rfl rfl
  refine h.2 1 ?_
  intro ja hja hne hap hit
  show (20 : ℝ) ≤ ctxFar.nmdistance2ll _ _
  norm_num [ctxFar, trivialCtx]

/-- C6 counterexample: dragging the datablock of an aircraft whose
automatic offset is (5, 5) by (10, -4) leaves its manual offset at
(15, 1), not at the drag vector (10, -4): the drag folds the prior
automatic and manual offsets into the manual offset to preserve the
on-screen position. -/
theorem drag_offset_counterexample :
    (mapLookup 0 (consumeMouseEvents ctxDrag rsDrag).1.aircraft).map
        (fun st => st.datablockManualOffset) = some ((15 : ℝ), (1 : ℝ)) ∧
    ¬((15 : ℝ), (1 : ℝ)) = ((10 : ℝ), (-4 : ℝ)) := by
  constructor
  · have hm : ctxDrag.mouse = some { dragDelta := (10, -4), draggingPrimary := true } := rfl
    rw [consumeMouseEvents, hm]
    simp only [ctxDrag, trivialCtx, rsDrag]
    norm_num [mapUpdate, mapLookup, add2f]
  · intro h
    have h1 := congrArg Prod.fst h
    norm_num at h1

/-- C6 amended: on a frame whose mouse is held mid-drag over the selected
datablock (no fresh click), the aircraft's manual offset becomes the sum
of its previous automatic offset, its previous manual offset and the drag
delta, and the automatic offset is zeroed; on the release frame the drag
selection is cleared with no further mutation of the aircraft states. -/
theorem datablock_drag_updates_offsets (ctx : PaneCtx) (rs : RadarScopePane)
    (a : AircraftId) (st : AircraftScopeState) (m : MouseCtx)
    (hm : ctx.mouse = some m) (hclick : m.clickedPrimary = false)
    (hsel : rs.acSelectedByDatablock = some a)
    (hst : mapLookup a rs.aircraft = some st) :
    (m.draggingPrimary = true →
      mapLookup a (consumeMouseEvents ctx rs).1.aircraft =
        some { st with
          datablockManualOffset :=
            add2f st.datablockAutomaticOffset (add2f st.datablockManualOffset m.dragDelta),
          datablockAutomaticOffset := (0, 0) } ∧
      (consumeMouseEvents ctx rs).1.acSelectedByDatablock = some a) ∧
    (m.draggingPrimary = false →
      (consumeMouseEvents ctx rs).1.aircraft = rs.aircraft ∧
      (consumeMouseEvents ctx rs).1.acSelectedByDatablock = none) := by
  rw [consumeMouseEvents, hm]
  constructor
  · intro hdrag
    constructor
    · simp only [hsel, hdrag, hclick, if_true, ite_true, Bool.not_false]
      simp [mapLookup_update_self, hst]
    · simp only [hsel, hdrag, hclick, if_true, ite_true, Bool.not_false]
      simp
  · intro hdrag
    constructor
    · simp only [hsel, hdrag, hclick]
      simp
    · simp only [hsel, hdrag, hclick]
      simp

/-- Witness for the drag theorem at the concrete drag scenario: the
automatic offset of the dragged aircraft is zeroed. -/
theorem datablock_drag_updates_offsets_witness :
    (mapLookup 0 (consumeMouseEvents ctxDrag rsDrag).1.aircraft).map
      (fun st => st.datablockAutomaticOffset) = some ((0 : ℝ), (0 : ℝ)) := by
  have h := datablock_drag_updates_offsets ctxDrag rsDrag 0
    { datablockAutomaticOffset := (5, 5) }
    { dragDelta := (10, -4), draggingPrimary := true } rfl rfl rfl rfl
  rw [(h.1 rfl).1]
  rfl

/-- C3 counterexample: in a regular (non-thumbnail) frame the phase log of
Draw runs the conflict detector (range indicators) before the datablock
layout, so the claimed order sync, layout, conflict detection, mouse does
not hold: the layout index is not before the conflict-detection index. -/
theorem draw_phase_order_counterexample :
    (Draw trivialCtx { pane := {} }).log =
      [DrawPhase.sync, DrawPhase.tracks, DrawPhase.rangeIndicators, DrawPhase.mit,
        DrawPhase.textUpdate, DrawPhase.layout, DrawPhase.datablocks, DrawPhase.vectorLines,
        DrawPhase.mouse] ∧
    ¬(List.indexOf DrawPhase.layout
        [DrawPhase.sync, DrawPhase.tracks, DrawPhase.rangeIndicators, DrawPhase.mit,
          DrawPhase.textUpdate, DrawPhase.layout, DrawPhase.datablocks,
          DrawPhase.vectorLines, DrawPhase.mouse] <
      List.indexOf DrawPhase.rangeIndicators
        [DrawPhase.sync, DrawPhase.tracks, DrawPhase.rangeIndicators, DrawPhase.mit,
          DrawPhase.textUpdate, DrawPhase.layout, DrawPhase.datablocks,
          DrawPhase.vectorLines, DrawPhase.mouse]) := by
  constructor
  · have hth : trivialCtx.thumbnail = false := rfl
    rw [Draw]
    simp only [hth]
    simp
  · decide

/-- C3 amended: every regular frame runs the engine phases in the fixed
order synchronization, track rendering, conflict detection, MIT
sequencing, text update, datablock layout, datablock rendering, vector
lines, mouse-gesture handling — conflict detection before layout, layout
before mouse handling. -/
theorem draw_phase_order (ctx : PaneCtx) (fs : FrameState)
    (hthumb : ctx.thumbnail = false) :
    (Draw ctx fs).log = fs.log ++
      [DrawPhase.sync, DrawPhase.tracks, DrawPhase.rangeIndicators, DrawPhase.mit,
        DrawPhase.textUpdate, DrawPhase.layout, DrawPhase.datablocks, DrawPhase.vectorLines,
        DrawPhase.mouse] := by
  rw [Draw]
  simp only [hthumb]
  simp

/-- Witness for the phase-order theorem at the trivial frame context. -/
theorem draw_phase_order_witness :
    (Draw trivialCtx { pane := {}, log := [DrawPhase.mouse] }).log =
      [DrawPhase.mouse, DrawPhase.sync, DrawPhase.tracks, DrawPhase.rangeIndicators,
        DrawPhase.mit, DrawPhase.textUpdate, DrawPhase.layout, DrawPhase.datablocks,
        DrawPhase.vectorLines, DrawPhase.mouse] := by
  have h := draw_phase_order trivialCtx { pane := {}, log := [DrawPhase.mouse] } rfl
  simpa using h

theorem length2f_nonneg (a : Vec2) : 0 ≤ length2f a := Real.sqrt_nonneg _

theorem length2f_scale (c : ℝ) (a : Vec2) :
    length2f (scale2f a c) = |c| * length2f a := by
  unfold length2f scale2f
  rw [show (c * a.1) ^ 2 + (c * a.2) ^ 2 = c ^ 2 * (a.1 ^ 2 + a.2 ^ 2) by ring]
  rw [Real.sqrt_mul (sq_nonneg c), Real.sqrt_sq_eq_abs]

theorem sub_normalize_length (g : Vec2) (h : 1 ≤ length2f g) :
    length2f (sub2f g (normalize2f g)) = length2f g - 1 := by
  have hL : 0 < length2f g := lt_of_lt_of_le one_pos h
  have hsub : sub2f g (normalize2f g) = scale2f g (1 - 1 / length2f g) := by
    unfold sub2f normalize2f scale2f
    refine Prod.ext ?_ ?_ <;> simp <;> ring
  rw [hsub, length2f_scale, abs_of_nonneg]
  · rw [sub_mul, one_mul, one_div, inv_mul_cancel₀ (ne_of_gt hL)]
  · have hdiv : 1 / length2f g ≤ 1 := by
      rw [div_le_one hL]
      exact h
    linarith

theorem ceil_sub_one_succ_le {L : ℝ} (h : 1 ≤ L) :
    Nat.ceil (L - 1) + 1 ≤ Nat.ceil L := by
  have h1 : 1 ≤ Nat.ceil L := Nat.one_le_ceil_iff.2 (lt_of_lt_of_le one_pos h)
  have h2 : Nat.ceil (L - 1) ≤ Nat.ceil L - 1 := by
    rw [Nat.ceil_le]
    have hcast : ((Nat.ceil L - 1 : ℕ) : ℝ) = (Nat.ceil L : ℝ) - 1 := by
      rw [Nat.cast_sub h1]
      simp
    rw [hcast]
    linarith [Nat.le_ceil L]
  omega

theorem offsetSelfOnly_offset_irrel (ctx : PaneCtx) (rs : RadarScopePane) (ac : Aircraft)
    (st : AircraftScopeState) (v : Vec2) :
    offsetSelfOnly ctx rs ac { st with datablockAutomaticOffset := v } =
      offsetSelfOnly ctx rs ac st := rfl

theorem attractEntry_of_placed (ctx : PaneCtx) (rs : RadarScopePane)
    (others : List LayoutEntry) (e : LayoutEntry) (h : e.placed = true) :
    attractEntry ctx rs others e = (e, false) := by
  simp only [attractEntry, if_pos h]

theorem attractEntry_false (ctx : PaneCtx) (rs : RadarScopePane)
    (others : List LayoutEntry) (e : LayoutEntry)
    (h : (attractEntry ctx rs others e).2 = false) :
    (attractEntry ctx rs others e).1 = e := by
  simp only [attractEntry] at h ⊢
  split_ifs at h ⊢ <;> first | rfl | exact absurd h (by simp)

theorem attractEntry_placed_id (ctx : PaneCtx) (rs : RadarScopePane)
    (others : List LayoutEntry) (e : LayoutEntry) :
    (attractEntry ctx rs others e).1.placed = e.placed ∧
      (attractEntry ctx rs others e).1.id = e.id := by
  simp only [attractEntry]
  split_ifs <;> exact ⟨rfl, rfl⟩

theorem attractEntry_true_measure (ctx : PaneCtx) (rs : RadarScopePane)
    (others : List LayoutEntry) (e : LayoutEntry)
    (h : (attractEntry ctx rs others e).2 = true) :
    entryCeilDist ctx rs (attractEntry ctx rs others e).1 + 1 ≤ entryCeilDist ctx rs e := by
  by_cases h1 : e.placed = true
  · rw [attractEntry_of_placed ctx rs others e h1] at h
    exact absurd h (by simp)
  · by_cases h2 : length2f
        (sub2f (offsetSelfOnly ctx rs e.ac e.state) e.state.datablockAutomaticOffset) < 1
    · have hs : attractEntry ctx rs others e = (e, false) := by
        simp only [attractEntry, if_neg h1, if_pos h2]
      rw [hs] at h
      exact absurd h (by simp)
    · by_cases h3 : ∀ o ∈ others, ¬Overlaps
          (e.bounds.Offset
            (normalize2f
              (sub2f (offsetSelfOnly ctx rs e.ac e.state) e.state.datablockAutomaticOffset)))
          o.bounds
      · have hs : attractEntry ctx rs others e =
            ({ e with
                bounds :=
                  e.bounds.Offset
                    (normalize2f
                      (sub2f (offsetSelfOnly ctx rs e.ac e.state)
                        e.state.datablockAutomaticOffset)),
                state :=
                  { e.state with
                    datablockAutomaticOffset :=
                      add2f e.state.datablockAutomaticOffset
                        (normalize2f
                          (sub2f (offsetSelfOnly ctx rs e.ac e.state)
                            e.state.datablockAutomaticOffset)) } }, true) := by
          simp only [attractEntry, if_neg h1, if_neg h2, if_pos h3]
        rw [hs]
        simp only [entryCeilDist, offsetSelfOnly_offset_irrel]
        have hlen : 1 ≤ length2f
            (sub2f (offsetSelfOnly ctx rs e.ac e.state) e.state.datablockAutomaticOffset) :=
          not_lt.1 h2
        have hsub : sub2f (offsetSelfOnly ctx rs e.ac e.state)
            (add2f e.state.datablockAutomaticOffset
              (normalize2f
                (sub2f (offsetSelfOnly ctx rs e.ac e.state)
                  e.state.datablockAutomaticOffset))) =
            sub2f
              (sub2f (offsetSelfOnly ctx rs e.ac e.state) e.state.datablockAutomaticOffset)
              (normalize2f
                (sub2f (offsetSelfOnly ctx rs e.ac e.state)
                  e.state.datablockAutomaticOffset)) := by
          unfold sub2f add2f
          refine Prod.ext ?_ ?_ <;> simp <;> ring
        rw [hsub, sub_normalize_length _ hlen]
        exact ceil_sub_one_succ_le hlen
      · have hs : attractEntry ctx rs others e = (e, false) := by
          simp only [attractEntry, if_neg h1, if_neg h2, if_neg h3]
        rw [hs] at h
        exact absurd h (by simp)

theorem attractMeasure_append (ctx : PaneCtx) (rs : RadarScopePane)
    (l1 l2 : List LayoutEntry) :
    attractMeasure ctx rs (l1 ++ l2) = attractMeasure ctx rs l1 + attractMeasure ctx rs l2 := by
  simp [attractMeasure]

theorem attractMeasure_cons (ctx : PaneCtx) (rs : RadarScopePane) (e : LayoutEntry)
    (l : List LayoutEntry) :
    attractMeasure ctx rs (e :: l) = entryCeilDist ctx rs e + attractMeasure ctx rs l := by
  simp [attractMeasure]

theorem attractPassAux_measure (ctx : PaneCtx) (rs : RadarScopePane)
    (todo done : List LayoutEntry) :
    attractMeasure ctx rs (attractPassAux ctx rs done todo).1 ≤
      attractMeasure ctx rs done + attractMeasure ctx rs todo ∧
    ((attractPassAux ctx rs done todo).2 = true →
      attractMeasure ctx rs (attractPassAux ctx rs done todo).1 <
        attractMeasure ctx rs done + attractMeasure ctx rs todo) := by
  induction todo generalizing done with
  | nil =>
    constructor
    · simp [attractPassAux, attractMeasure]
    · intro h
      exact absurd h (by simp [attractPassAux])
  | cons e rest ih =>
    simp only [attractPassAux]
    obtain ⟨ih1, ih2⟩ := ih (done ++ [(attractEntry ctx rs (done ++ rest) e).1])
    rw [attractMeasure_append] at ih1 ih2
    have hone : attractMeasure ctx rs [(attractEntry ctx rs (done ++ rest) e).1] =
        entryCeilDist ctx rs (attractEntry ctx rs (done ++ rest) e).1 := by
      simp [attractMeasure]
    rw [hone] at ih1 ih2
    rw [attractMeasure_cons]
    by_cases hm : (attractEntry ctx rs (done ++ rest) e).2 = true
    · have hlt := attractEntry_true_measure ctx rs (done ++ rest) e hm
      constructor
      · omega
      · intro _
        omega
    · have heq : (attractEntry ctx rs (done ++ rest) e).1 = e :=
        attractEntry_false ctx rs (done ++ rest) e (by simpa using hm)
      rw [heq] at ih1 ih2 ⊢
      constructor
      · omega
      · intro hor
        simp only [Bool.or_eq_true] at hor
        rcases hor with hor | hor
        · exact absurd hor hm
        · have := ih2 hor
          omega

theorem attractPass_measure (ctx : PaneCtx) (rs : RadarScopePane) (es : List LayoutEntry) :
    attractMeasure ctx rs (attractPass ctx rs es).1 ≤ attractMeasure ctx rs es ∧
    ((attractPass ctx rs es).2 = true →
      attractMeasure ctx rs (attractPass ctx rs es).1 < attractMeasure ctx rs es) := by
  have h := attractPassAux_measure ctx rs es []
  simp only [attractMeasure, List.map_nil, List.sum_nil, Nat.zero_add] at h
  exact h

theorem attractLoopFuel_reaches_fixpoint (ctx : PaneCtx) (rs : RadarScopePane) :
    ∀ n es, attractMeasure ctx rs es < n →
      (attractPass ctx rs (attractLoopFuel ctx rs n es)).2 = false := by
  intro n
  induction n with
  | zero => intro es h; exact absurd h (by omega)
  | succ n ih =>
    intro es h
    simp only [attractLoopFuel]
    by_cases hp : (attractPass ctx rs es).2 = true
    · rw [if_pos hp]
      refine ih _ ?_
      have := (attractPass_measure ctx rs es).2 hp
      omega
    · rw [if_neg hp]
      simpa using hp

/-- C9: the automatic layout terminates on every input: the relaxation
phase of the pipeline is exactly 20 iterations of relaxIter (accepting the
result as-is, overlaps or not), and the attraction pull-in loop stops at a
full pass in which no label moves — the pass over the loop's result moves
nothing. -/
theorem layout_engine_terminates (ctx : PaneCtx) (rs : RadarScopePane)
    (es : List LayoutEntry) :
    (attractPass ctx rs (attractLoop ctx rs es)).2 = false ∧
    layoutPipeline ctx rs es =
      attractLoop ctx rs
        (relaxIter^[20]
          (initUnplacedBounds ctx
            (layoutPass3 ctx rs (layoutPass2 ctx rs (layoutPass1 ctx es))))) := by
  constructor
  · exact attractLoopFuel_reaches_fixpoint ctx rs (attractMeasure ctx rs es + 1) es
      (by omega)
  · rfl

theorem overlaps_comm (a b : Extent2D) : Overlaps a b ↔ Overlaps b a := by
  unfold Overlaps
  tauto

theorem layoutPres_trans {a b c : LayoutEntry} (h1 : layoutPres a b)
    (h2 : layoutPres b c) : layoutPres a c := by
  refine ⟨h1.1.trans h2.1, fun hp => ?_⟩
  rw [h2.2 (h1.1 ▸ hp), h1.2 hp]

theorem layoutPres_refl (a : LayoutEntry) : layoutPres a a := ⟨rfl, fun _ => rfl⟩

theorem forall2_pres_refl (l : List LayoutEntry) : List.Forall₂ layoutPres l l := by
  induction l with
  | nil => exact List.Forall₂.nil
  | cons a rest ih => exact List.Forall₂.cons (layoutPres_refl a) ih

theorem forall2_pres_trans {l1 l2 l3 : List LayoutEntry}
    (h1 : List.Forall₂ layoutPres l1 l2) (h2 : List.Forall₂ layoutPres l2 l3) :
    List.Forall₂ layoutPres l1 l3 := by
  induction h1 generalizing l3 with
  | nil =>
    cases h2
    exact List.Forall₂.nil
  | cons hab hrest ih =>
    cases h2 with
    | cons hbc hrest2 => exact List.Forall₂.cons (layoutPres_trans hab hbc) (ih hrest2)

theorem forall2_mem_right {r : LayoutEntry → LayoutEntry → Prop} :
    ∀ {l l' : List LayoutEntry}, List.Forall₂ r l l' → ∀ y ∈ l', ∃ x ∈ l, r x y := by
  intro l l' h
  induction h with
  | nil => intro y hy; exact absurd hy (List.not_mem_nil y)
  | cons hab hrest ih =>
    intro y hy
    rcases List.mem_cons.1 hy with rfl | hy2
    · exact ⟨_, List.mem_cons_self _ _, hab⟩
    · obtain ⟨x, hx, hxy⟩ := ih y hy2
      exact ⟨x, List.mem_cons_of_mem _ hx, hxy⟩

theorem pairwise_inv_pres {L L' : List LayoutEntry}
    (hf : List.Forall₂ layoutPres L L') (hp : List.Pairwise layoutInv L) :
    List.Pairwise layoutInv L' := by
  induction hf with
  | nil => exact List.Pairwise.nil
  | cons hab hrest ih =>
    rw [List.pairwise_cons] at hp ⊢
    obtain ⟨hhead, htail⟩ := hp
    refine ⟨?_, ih htail⟩
    intro y hy hbp hyp hnm
    obtain ⟨x, hx, hxy⟩ := forall2_mem_right hrest y hy
    have hba := hab.2 (hab.1.trans hbp)
    have hyx := hxy.2 (hxy.1.trans hyp)
    rw [hba, hyx] at hnm ⊢
    exact hhead x hx (hab.1.trans hbp) (hxy.1.trans hyp) hnm

theorem placed_actual_pres (ctx : PaneCtx) {L L' : List LayoutEntry}
    (hf : List.Forall₂ layoutPres L L')
    (h : ∀ e ∈ L, e.placed = true → e.bounds = windowPadded ctx e) :
    ∀ e ∈ L', e.placed = true → e.bounds = windowPadded ctx e := by
  intro e he hp
  obtain ⟨x, hx, hxe⟩ := forall2_mem_right hf e he
  have hex := hxe.2 (hxe.1.trans hp)
  rw [hex]
  exact h x hx (hxe.1.trans hp)

theorem map_pres (f : LayoutEntry → LayoutEntry)
    (hf : ∀ e, (f e).placed = e.placed ∧ (e.placed = true → f e = e))
    (l : List LayoutEntry) : List.Forall₂ layoutPres l (l.map f) := by
  induction l with
  | nil => exact List.Forall₂.nil
  | cons a rest ih =>
    exact List.Forall₂.cons ⟨(hf a).1.symm, (hf a).2⟩ ih

theorem layoutPass3_pres (ctx : PaneCtx) (rs : RadarScopePane) (es : List LayoutEntry) :
    List.Forall₂ layoutPres es (layoutPass3 ctx rs es) := by
  refine map_pres _ (fun e => ⟨?_, fun hp => ?_⟩) es
  · simp only [layoutPass3]
    split_ifs <;> rfl
  · simp only [if_pos hp]

theorem initUnplacedBounds_pres (ctx : PaneCtx) (es : List LayoutEntry) :
    List.Forall₂ layoutPres es (initUnplacedBounds ctx es) := by
  refine map_pres _ (fun e => ⟨?_, fun hp => ?_⟩) es
  · split_ifs <;> rfl
  · simp only [if_pos hp]

theorem relaxEntry_placed_eq (es : List LayoutEntry) (i : ℕ) (e : LayoutEntry) :
    (relaxEntry es i e).placed = e.placed ∧ (e.placed = true → relaxEntry es i e = e) := by
  constructor
  · simp only [relaxEntry]
    split_ifs <;> rfl
  · intro hp
    simp only [relaxEntry, if_pos hp]

theorem enum_map_pres (G : ℕ → LayoutEntry → LayoutEntry)
    (hG : ∀ i e, (G i e).placed = e.placed ∧ (e.placed = true → G i e = e)) :
    ∀ (l : List LayoutEntry) (n : ℕ),
      List.Forall₂ layoutPres l ((l.enumFrom n).map (fun ie => G ie.1 ie.2)) := by
  intro l
  induction l with
  | nil => intro n; exact List.Forall₂.nil
  | cons a rest ih =>
    intro n
    rw [List.enumFrom_cons, List.map_cons]
    exact List.Forall₂.cons ⟨(hG n a).1.symm, (hG n a).2⟩ (ih (n + 1))

theorem relaxIter_pres (es : List LayoutEntry) :
    List.Forall₂ layoutPres es (relaxIter es) :=
  enum_map_pres (relaxEntry es) (relaxEntry_placed_eq es) es 0

theorem relax_iterate_pres (n : ℕ) (es : List LayoutEntry) :
    List.Forall₂ layoutPres es (relaxIter^[n] es) := by
  induction n generalizing es with
  | zero => exact forall2_pres_refl es
  | succ n ih =>
    rw [Function.iterate_succ_apply]
    exact forall2_pres_trans (relaxIter_pres es) (ih (relaxIter es))

theorem attractEntry_pres (ctx : PaneCtx) (rs : RadarScopePane)
    (others : List LayoutEntry) (e : LayoutEntry) :
    layoutPres e (attractEntry ctx rs others e).1 := by
  refine ⟨(attractEntry_placed_id ctx rs others e).1.symm, fun hp => ?_⟩
  rw [attractEntry_of_placed ctx rs others e hp]

theorem forall2_pres_append {l1 l2 l3 l4 : List LayoutEntry}
    (h1 : List.Forall₂ layoutPres l1 l2) (h2 : List.Forall₂ layoutPres l3 l4) :
    List.Forall₂ layoutPres (l1 ++ l3) (l2 ++ l4) := by
  induction h1 with
  | nil => exact h2
  | cons hab hrest ih => exact List.Forall₂.cons hab ih

theorem attractPassAux_pres (ctx : PaneCtx) (rs : RadarScopePane) :
    ∀ (todo done done' : List LayoutEntry), List.Forall₂ layoutPres done done' →
      List.Forall₂ layoutPres (done ++ todo) (attractPassAux ctx rs done' todo).1 := by
  intro todo
  induction todo with
  | nil =>
    intro done done' h
    simpa [attractPassAux] using h
  | cons e rest ih =>
    intro done done' h
    simp only [attractPassAux]
    have hstep : List.Forall₂ layoutPres (done ++ [e])
        (done' ++ [(attractEntry ctx rs (done' ++ rest) e).1]) :=
      forall2_pres_append h
        (List.Forall₂.cons (attractEntry_pres ctx rs (done' ++ rest) e) List.Forall₂.nil)
    have := ih (done ++ [e]) (done' ++ [(attractEntry ctx rs (done' ++ rest) e).1]) hstep
    simpa [List.append_assoc] using this

theorem attractPass_pres (ctx : PaneCtx) (rs : RadarScopePane) (es : List LayoutEntry) :
    List.Forall₂ layoutPres es (attractPass ctx rs es).1 := by
  have := attractPassAux_pres ctx rs es [] [] List.Forall₂.nil
  simpa [attractPass] using this

theorem attractLoopFuel_pres (ctx : PaneCtx) (rs : RadarScopePane) :
    ∀ (n : ℕ) (es : List LayoutEntry),
      List.Forall₂ layoutPres es (attractLoopFuel ctx rs n es) := by
  intro n
  induction n with
  | zero => intro es; exact forall2_pres_refl es
  | succ n ih =>
    intro es
    simp only [attractLoopFuel]
    by_cases hp : (attractPass ctx rs es).2 = true
    · rw [if_pos hp]
      exact forall2_pres_trans (attractPass_pres ctx rs es) (ih (attractPass ctx rs es).1)
    · rw [if_neg hp]
      exact forall2_pres_refl es

theorem attractLoop_pres (ctx : PaneCtx) (rs : RadarScopePane) (es : List LayoutEntry) :
    List.Forall₂ layoutPres es (attractLoop ctx rs es) :=
  attractLoopFuel_pres ctx rs _ es

theorem buildLayoutEntries_unplaced (ctx : PaneCtx) (rs : RadarScopePane) :
    ∀ e ∈ buildLayoutEntries ctx rs, e.placed = false := by
  intro e he
  simp only [buildLayoutEntries] at he
  have h2 := (List.perm_insertionSort _ _).mem_iff.1 he
  rw [List.mem_map] at h2
  obtain ⟨p, _, rfl⟩ := h2
  rfl

theorem layoutPass1_props (ctx : PaneCtx) (es : List LayoutEntry)
    (h0 : ∀ e ∈ es, e.placed = false) :
    List.Pairwise layoutInv (layoutPass1 ctx es) ∧
    (∀ e ∈ layoutPass1 ctx es, e.placed = false → ¬manualNZ e) ∧
    (∀ e ∈ layoutPass1 ctx es, e.placed = true →
      manualNZ e ∧ e.bounds = windowPadded ctx e) := by
  have hA : ∀ e2 ∈ layoutPass1 ctx es, e2.placed = true →
      manualNZ e2 ∧ e2.bounds = windowPadded ctx e2 := by
    intro e2 he2 hp
    rw [layoutPass1, List.mem_map] at he2
    obtain ⟨e, he, rfl⟩ := he2
    by_cases hm : e.state.datablockManualOffset.1 ≠ 0 ∨ e.state.datablockManualOffset.2 ≠ 0
    · rw [if_pos hm] at hp ⊢
      exact ⟨hm, rfl⟩
    · rw [if_neg hm] at hp
      rw [h0 e he] at hp
      exact absurd hp (by simp)
  have hB : ∀ e2 ∈ layoutPass1 ctx es, e2.placed = false → ¬manualNZ e2 := by
    intro e2 he2 hp
    rw [layoutPass1, List.mem_map] at he2
    obtain ⟨e, he, rfl⟩ := he2
    by_cases hm : e.state.datablockManualOffset.1 ≠ 0 ∨ e.state.datablockManualOffset.2 ≠ 0
    · rw [if_pos hm] at hp
      exact absurd hp (by simp)
    · rw [if_neg hm] at hp ⊢
      exact hm
  refine ⟨?_, hB, hA⟩
  refine List.pairwise_of_forall_mem_list ?_
  intro a ha b hb hap hbp hnm
  exact absurd ⟨(hA a ha hap).1, (hA b hb hbp).1⟩ hnm

theorem pass2_bounds_eq (st : AircraftScopeState) (pw off : Vec2)
    (hm : ¬(st.datablockManualOffset.1 ≠ 0 ∨ st.datablockManualOffset.2 ≠ 0)) :
    ((st.WindowDatablockBounds pw).Expand 5).Offset
        (sub2f off st.datablockAutomaticOffset) =
      (({ st with datablockAutomaticOffset := off } :
        AircraftScopeState).WindowDatablockBounds pw).Expand 5 := by
  simp only [AircraftScopeState.WindowDatablockBounds]
  rw [if_neg hm, if_neg hm]
  simp only [Extent2D.Offset, Extent2D.Expand, add2f, sub2f, Extent2D.mk.injEq,
    Prod.mk.injEq]
  refine ⟨⟨?_, ?_⟩, ?_, ?_⟩ <;> ring

theorem layoutPass2Aux_inv (ctx : PaneCtx) (rs : RadarScopePane) :
    ∀ (todo done : List LayoutEntry),
      List.Pairwise layoutInv (done ++ todo) →
      (∀ e ∈ done ++ todo, e.placed = false → ¬manualNZ e) →
      (∀ e ∈ done ++ todo, e.placed = true → e.bounds = windowPadded ctx e) →
      List.Pairwise layoutInv (layoutPass2Aux ctx rs done todo) ∧
      (∀ e ∈ layoutPass2Aux ctx rs done todo, e.placed = false → ¬manualNZ e) ∧
      (∀ e ∈ layoutPass2Aux ctx rs done todo, e.placed = true →
        e.bounds = windowPadded ctx e) := by
  intro todo
  induction todo with
  | nil =>
    intro done h1 h2 h3
    rw [List.append_nil] at h1 h2 h3
    exact ⟨h1, h2, h3⟩
  | cons e rest ih =>
    intro done h1 h2 h3
    by_cases hp : e.placed = true
    · simp only [layoutPass2Aux, if_pos hp]
      refine ih (done ++ [e]) ?_ ?_ ?_
      · simpa [List.append_assoc] using h1
      · simpa [List.append_assoc] using h2
      · simpa [List.append_assoc] using h3
    · simp only [layoutPass2Aux, if_neg hp]
      by_cases hall : allowedAgainst (done ++ e :: rest)
          (((e.state.WindowDatablockBounds (ctx.windowFromLatLong e.ac.position)).Expand
              5).Offset
            (sub2f (offsetSelfOnly ctx rs e.ac e.state) e.state.datablockAutomaticOffset))
      · rw [if_pos hall]
        have hpf : e.placed = false := by
          cases hpv : e.placed
          · rfl
          · exact absurd hpv hp
        have hmanual : ¬manualNZ e :=
          h2 e (List.mem_append_right done (List.mem_cons_self e rest)) hpf
        refine ih _ ?_ ?_ ?_
        · -- pairwise invariant with the newly placed entry
          rw [List.pairwise_append] at h1
          obtain ⟨hd, hc, hcross⟩ := h1
          rw [List.pairwise_cons] at hc
          obtain ⟨herest, hrest⟩ := hc
          have hgoal : List.Pairwise layoutInv (done ++
              { e with
                placed := true,
                bounds :=
                  ((e.state.WindowDatablockBounds
                        (ctx.windowFromLatLong e.ac.position)).Expand 5).Offset
                    (sub2f (offsetSelfOnly ctx rs e.ac e.state)
                      e.state.datablockAutomaticOffset),
                state :=
                  { e.state with
                    datablockAutomaticOffset := offsetSelfOnly ctx rs e.ac e.state } } ::
              rest) := by
            rw [List.pairwise_append]
            refine ⟨hd, ?_, ?_⟩
            · rw [List.pairwise_cons]
              refine ⟨?_, hrest⟩
              intro y hy _ hyp _
              exact hall y
                (List.mem_append_right done (List.mem_cons_of_mem e hy)) hyp
            · intro a ha b hb
              rcases List.mem_cons.1 hb with rfl | hb2
              · intro hap _ _
                have hov := hall a (List.mem_append_left _ ha) hap
                rw [overlaps_comm] at hov
                exact hov
              · exact hcross a ha b (List.mem_cons_of_mem e hb2)
          simpa [List.append_assoc] using hgoal
        · intro e2 he2
          simp only [List.append_assoc, List.singleton_append] at he2
          rcases List.mem_append.1 he2 with he2 | he2
          · exact h2 e2 (List.mem_append_left _ he2)
          · rcases List.mem_cons.1 he2 with rfl | he2
            · intro hcontra
              exact absurd hcontra (by simp)
            · exact h2 e2 (List.mem_append_right done (List.mem_cons_of_mem e he2))
        · intro e2 he2
          simp only [List.append_assoc, List.singleton_append] at he2
          rcases List.mem_append.1 he2 with he2 | he2
          · exact h3 e2 (List.mem_append_left _ he2)
          · rcases List.mem_cons.1 he2 with rfl | he2
            · intro _
              show _ = windowPadded ctx _
              simp only [windowPadded]
              exact pass2_bounds_eq e.state (ctx.windowFromLatLong e.ac.position)
                (offsetSelfOnly ctx rs e.ac e.state) hmanual
            · exact h3 e2 (List.mem_append_right done (List.mem_cons_of_mem e he2))
      · rw [if_neg hall]
        refine ih (done ++ [e]) ?_ ?_ ?_
        · simpa [List.append_assoc] using h1
        · simpa [List.append_assoc] using h2
        · simpa [List.append_assoc] using h3

/-- C1 amended: after the automatic layout pipeline finishes, any two
placed entries that do not both carry manual offsets have non-overlapping
padded bounds, and every placed entry's recorded bounds equal its actual
on-screen padded datablock bounds; unplaced entries are the labels the
claim exempts as unresolved at the iteration cap, and pairs of
manually-offset labels are the additional exemption the counterexample
forces. -/
theorem layout_padding_invariant (ctx : PaneCtx) (rs : RadarScopePane) :
    List.Pairwise layoutInv (layoutPipeline ctx rs (buildLayoutEntries ctx rs)) ∧
    ∀ e ∈ layoutPipeline ctx rs (buildLayoutEntries ctx rs), e.placed = true →
      e.bounds = windowPadded ctx e := by
  have h0 := buildLayoutEntries_unplaced ctx rs
  obtain ⟨hp1, hu1, hb1⟩ := layoutPass1_props ctx (buildLayoutEntries ctx rs) h0
  have hb1x : ∀ e ∈ layoutPass1 ctx (buildLayoutEntries ctx rs), e.placed = true →
      e.bounds = windowPadded ctx e := fun e he hp => (hb1 e he hp).2
  obtain ⟨hp2, hu2, hb2⟩ := layoutPass2Aux_inv ctx rs
    (layoutPass1 ctx (buildLayoutEntries ctx rs)) [] (by simpa using hp1)
    (by simpa using hu1) (by simpa using hb1x)
  have hf : List.Forall₂ layoutPres
      (layoutPass2Aux ctx rs [] (layoutPass1 ctx (buildLayoutEntries ctx rs)))
      (layoutPipeline ctx rs (buildLayoutEntries ctx rs)) := by
    refine forall2_pres_trans (layoutPass3_pres ctx rs _) ?_
    refine forall2_pres_trans (initUnplacedBounds_pres ctx _) ?_
    refine forall2_pres_trans (relax_iterate_pres 20 _) ?_
    exact attractLoop_pres ctx rs _
  exact ⟨pairwise_inv_pres hf hp2, placed_actual_pres ctx hf hb2⟩

theorem FilterSlice_all {α : Type} (p : α → Prop) :
    ∀ l : List α, (∀ a ∈ l, p a) → FilterSlice p l = l := by
  intro l
  induction l with
  | nil => intro _; rfl
  | cons a rest ih =>
    intro h
    rw [FilterSlice, if_pos (h a (List.mem_cons_self a rest)),
      ih (fun a2 ha2 => h a2 (List.mem_cons_of_mem a ha2))]

theorem buildManual_eval :
    buildLayoutEntries ctxManual rsManual = [entManualInit 0, entManualInit 1] := by
  have hp : ∀ p : AircraftId × AircraftScopeState,
      visible ctxManual rsManual p.1 ∧
        (ctxManual.windowFromLatLong (ctxManual.acData p.1).position).1 > -100 ∧
        (ctxManual.windowFromLatLong (ctxManual.acData p.1).position).1 <
          ctxManual.paneWidth + 100 ∧
        (ctxManual.windowFromLatLong (ctxManual.acData p.1).position).2 > -100 ∧
        (ctxManual.windowFromLatLong (ctxManual.acData p.1).position).2 <
          ctxManual.paneHeight + 100 := by
    intro p
    refine ⟨⟨?_, ?_, ?_, ?_⟩, ?_, ?_, ?_, ?_⟩ <;>
      norm_num [visible, ctxManual, trivialCtx, rsManual]
  simp only [buildLayoutEntries]
  rw [FilterSlice_all _ _ (fun a _ => hp a)]
  simp only [rsManual, List.map]
  rw [List.insertionSort, List.insertionSort, List.insertionSort, List.orderedInsert,
    List.orderedInsert]
  split_ifs with hle
  · rfl
  · exact absurd le_rfl hle

theorem windowPadded_manualInit (a : AircraftId) :
    windowPadded ctxManual (entManualInit a) = ⟨(-4, -14), (26, 6)⟩ := by
  have h : ((1 : ℝ), (1 : ℝ)).1 ≠ 0 ∨ ((1 : ℝ), (1 : ℝ)).2 ≠ 0 :=
    Or.inl one_ne_zero
  simp only [windowPadded, entManualInit, stManual, ctxManual, trivialCtx,
    AircraftScopeState.WindowDatablockBounds, Extent2D.Offset, add2f, if_pos h,
    Extent2D.Expand, Extent2D.mk.injEq, Prod.mk.injEq]
  norm_num

theorem pass1Manual :
    layoutPass1 ctxManual [entManualInit 0, entManualInit 1] =
      [entManualPlaced 0, entManualPlaced 1] := by
  have h : stManual.datablockManualOffset.1 ≠ 0 ∨ stManual.datablockManualOffset.2 ≠ 0 :=
    Or.inl (by norm_num [stManual])
  simp only [layoutPass1, List.map, entManualInit, if_pos h]
  rw [show ({ id := 0, ac := { callsign := "A" }, state := stManual } :
      LayoutEntry) = entManualInit 0 from rfl,
    show ({ id := 1, ac := { callsign := "A" }, state := stManual } :
      LayoutEntry) = entManualInit 1 from rfl,
    windowPadded_manualInit, windowPadded_manualInit]
  rfl

theorem manualPlaced_all_placed :
    ∀ e ∈ [entManualPlaced 0, entManualPlaced 1], e.placed = true := by
  intro e he
  rcases List.mem_cons.1 he with rfl | he2
  · rfl
  · rcases List.mem_cons.1 he2 with rfl | he3
    · rfl
    · exact absurd he3 (List.not_mem_nil e)

theorem pass2_all_placed (ctx : PaneCtx) (rs : RadarScopePane) :
    ∀ (todo done : List LayoutEntry), (∀ e ∈ todo, e.placed = true) →
      layoutPass2Aux ctx rs done todo = done ++ todo := by
  intro todo
  induction todo with
  | nil =>
    intro done _
    simp [layoutPass2Aux]
  | cons e rest ih =>
    intro done h
    rw [layoutPass2Aux, if_pos (h e (List.mem_cons_self e rest)),
      ih (done ++ [e]) (fun e2 he2 => h e2 (List.mem_cons_of_mem e he2))]
    simp

theorem pass3_all_placed (ctx : PaneCtx) (rs : RadarScopePane)
    (es : List LayoutEntry) (h : ∀ e ∈ es, e.placed = true) :
    layoutPass3 ctx rs es = es := by
  rw [layoutPass3]
  conv_rhs => rw [show es = es.map id from (List.map_id es).symm]
  refine List.map_congr_left ?_
  intro e he
  rw [if_pos (h e he)]
  rfl

theorem init_all_placed (ctx : PaneCtx) (es : List LayoutEntry)
    (h : ∀ e ∈ es, e.placed = true) :
    initUnplacedBounds ctx es = es := by
  rw [initUnplacedBounds]
  conv_rhs => rw [show es = es.map id from (List.map_id es).symm]
  refine List.map_congr_left ?_
  intro e he
  rw [if_pos (h e he)]
  rfl

theorem relaxIter_all_placed (es : List LayoutEntry)
    (h : ∀ e ∈ es, e.placed = true) : relaxIter es = es := by
  rw [relaxIter]
  have hstep : ∀ ie ∈ es.enum, relaxEntry es ie.1 ie.2 = ie.2 := by
    intro ie hie
    have hmem : ie.2 ∈ es := by
      have := List.mem_map_of_mem Prod.snd hie
      rwa [List.enum_map_snd] at this
    rw [relaxEntry, if_pos (h ie.2 hmem)]
  rw [List.map_congr_left hstep, List.enum_map_snd]

theorem attractPassAux_all_placed (ctx : PaneCtx) (rs : RadarScopePane) :
    ∀ (todo done : List LayoutEntry), (∀ e ∈ todo, e.placed = true) →
      attractPassAux ctx rs done todo = (done ++ todo, false) := by
  intro todo
  induction todo with
  | nil =>
    intro done _
    simp [attractPassAux]
  | cons e rest ih =>
    intro done h
    have he : attractEntry ctx rs (done ++ rest) e = (e, false) := by
      rw [attractEntry, if_pos (h e (List.mem_cons_self e rest))]
    rw [attractPassAux]
    simp only [he, ih (done ++ [e]) (fun e2 he2 => h e2 (List.mem_cons_of_mem e he2))]
    simp

theorem attractLoop_all_placed (ctx : PaneCtx) (rs : RadarScopePane)
    (es : List LayoutEntry) (h : ∀ e ∈ es, e.placed = true) :
    attractLoop ctx rs es = es := by
  have hpass : attractPass ctx rs es = (es, false) := by
    rw [attractPass, attractPassAux_all_placed ctx rs es [] h]
    simp
  rw [attractLoop, attractLoopFuel]
  simp only [hpass]
  simp

theorem pipelineManual_eval :
    layoutPipeline ctxManual rsManual (buildLayoutEntries ctxManual rsManual) =
      [entManualPlaced 0, entManualPlaced 1] := by
  rw [buildManual_eval]
  simp only [layoutPipeline, layoutPass2]
  rw [pass1Manual, pass2_all_placed ctxManual rsManual _ [] manualPlaced_all_placed,
    List.nil_append,
    pass3_all_placed ctxManual rsManual _ manualPlaced_all_placed,
    init_all_placed ctxManual _ manualPlaced_all_placed,
    Function.iterate_fixed (relaxIter_all_placed _ manualPlaced_all_placed) 20,
    attractLoop_all_placed ctxManual rsManual _ manualPlaced_all_placed]

/-- C1 counterexample: in the two-aircraft scenario where both datablocks
carry the manual offset (1, 1) at the same track position, the layout
pipeline leaves both placed with identical overlapping padded bounds, so
the claimed unconditional non-overlap of placed labels fails. -/
theorem layout_padding_counterexample :
    ¬ List.Pairwise layoutInvClaimed
      (layoutPipeline ctxManual rsManual (buildLayoutEntries ctxManual rsManual)) := by
  rw [pipelineManual_eval]
  intro h
  rw [List.pairwise_cons] at h
  have h2 := h.1 (entManualPlaced 1) (by simp) rfl rfl
  apply h2
  show Overlaps (⟨(-4, -14), (26, 6)⟩ : Extent2D) ⟨(-4, -14), (26, 6)⟩
  refine ⟨?_, ?_, ?_, ?_⟩ <;> norm_num

end
